import Mathlib

/-!
# Verification of the changedetection evidence pipeline

Shallow embedding of the core algorithms of the repository:

* `backend/services/change_engine.py` — confidence-weighted aggregation of
  per-frame predictions (`aggregate_predictions`) and the flag/confirm
  decision loop (`detect_changes`);
* `backend/utils/gps_utils.py` — linear GPS track interpolation
  (`interpolate_gps`);
* `backend/services/geo_matcher.py` — the two-pass frame-to-parcel matcher
  (`match_frames_to_properties`, `match_frame_to_property`), parametrised over
  an abstract geometry interface standing for the shapely / pyproj operations
  it calls, together with a concrete executable instance on axis-aligned
  rectangles used for witnesses and counterexamples.

Python floats are modelled as exact rationals; Python dicts as insertion-ordered
association lists; fallible operations return `Option`.
-/

namespace ChangeDetection

/-! ## Configuration constants (backend/config.py) -/

/-- `CONFIDENCE_THRESHOLD = 0.5` from `backend/config.py`. -/
def CONFIDENCE_THRESHOLD : ℚ := 1 / 2

/-- `MIN_FRAMES_FOR_PREDICTION = 1` from `backend/config.py`. -/
def MIN_FRAMES_FOR_PREDICTION : ℕ := 1

/-- `BUFFER_METERS = 30` from `backend/config.py`. -/
def BUFFER_METERS : ℚ := 30

/-! ## Data model for the change engine -/

/-- One per-frame classifier output: a dict `{predicted_class, confidence}`. -/
structure Prediction where
  predicted_class : String
  confidence : ℚ
  deriving DecidableEq

/-- The dict returned by `aggregate_predictions` on success. -/
structure Agg where
  predicted_typology : String
  aggregated_confidence : ℚ
  num_frames_analyzed : ℕ
  num_frames_agreeing : ℕ
  deriving DecidableEq

/-- Input record of `detect_changes`: a property together with its recorded
typology (`existing_typology`, possibly absent) and its prediction list. -/
structure PropertyPrediction where
  property_id : ℤ
  existing_typology : Option String
  predictions : List Prediction
  deriving DecidableEq

/-- One change report dict appended by the `detect_changes` loop. -/
structure ChangeReport where
  property_id : ℤ
  existing_typology : Option String
  predicted_typology : String
  aggregated_confidence : ℚ
  num_frames_analyzed : ℕ
  num_frames_agreeing : ℕ
  status : String
  deriving DecidableEq

/-! ## Insertion-ordered tallies (Python dict / Counter accumulation)

`class_scores[cls] = class_scores.get(cls, 0.0) + conf` and
`class_counts[cls] += 1` both add a value to the entry of a key in an
insertion-ordered dict, appending the key on first occurrence.  We model both
with one generic association-list update. -/

/-- Add `v` to the entry of key `c` in an insertion-ordered association list,
appending `(c, v)` if `c` is absent.  Models one Python dict accumulation step. -/
def tallyAux {α : Type} [Add α] : List (String × α) → String → α → List (String × α)
  | [], c, v => [(c, v)]
  | (k, s) :: rest, c, v =>
    if k = c then (k, s + v) :: rest else (k, s) :: tallyAux rest c v

/-- Accumulate `g p` per `predicted_class` over a prediction list, in order.
With `g = confidence` this is `class_scores`; with `g = 1` it is `class_counts`. -/
def tally {α : Type} [Add α] (g : Prediction → α) (preds : List Prediction) :
    List (String × α) :=
  preds.foldl (fun acc p => tallyAux acc p.predicted_class (g p)) []

/-- First-occurrence lookup with default: Python `d.get(k, d0)` / `d[k]`. -/
def lookupD {α : Type} : List (String × α) → String → α → α
  | [], _, d => d
  | (k, v) :: rest, c, d => if k = c then v else lookupD rest c d

/-- `max(..., key=...)` over the tail: keeps the current best, replacing it
only on a strictly greater key, so the first maximal element wins. -/
def maxKeyAux : String → ℚ → List (String × ℚ) → String
  | w, _, [] => w
  | w, v, (k, s) :: rest => if v < s then maxKeyAux k s rest else maxKeyAux w v rest

/-- `max(class_scores, key=class_scores.get)`: first key with maximal value;
`none` on the empty dict (where Python `max` would raise `ValueError`). -/
def winnerOf : List (String × ℚ) → Option String
  | [] => none
  | (k, v) :: rest => some (maxKeyAux k v rest)

/-! ## Rounding

`round(x, 4)` in Python rounds half to even.  On exact rationals: -/

/-- Floor of a rational, computed on its reduced fraction (`den > 0`, so
`fdiv` of the numerator by the denominator is the mathematical floor). -/
def ratFloor (x : ℚ) : ℤ := Int.fdiv x.num x.den

/-- Round a rational to the nearest integer, halves to even. -/
def halfEven (x : ℚ) : ℤ :=
  let f : ℤ := ratFloor x
  let r : ℚ := x - f
  if r < 1 / 2 then f
  else if 1 / 2 < r then f + 1
  else if f % 2 = 0 then f else f + 1

/-- `round(x, 4)`: round half-to-even at the fourth decimal. -/
def round4 (x : ℚ) : ℚ := (halfEven (x * 10000) : ℚ) / 10000

/-! ## `aggregate_predictions` (change_engine.py lines 9–47) -/

/-- Shallow embedding of `aggregate_predictions(predictions)`, with the module
constant `MIN_FRAMES_FOR_PREDICTION` made an explicit parameter `minFrames`.
Returns `none` when `len(predictions) < minFrames`.  The inner `winnerOf`
`none` case (empty score dict) is reachable only when `minFrames = 0` and
`predictions = []`, where Python `max({})` would raise; we return `none`. -/
def aggregate_predictions (predictions : List Prediction) (minFrames : ℕ) :
    Option Agg :=
  if predictions.length < minFrames then none
  else
    let class_scores := tally (fun p => p.confidence) predictions
    let class_counts := tally (fun _ => (1 : ℕ)) predictions
    match winnerOf class_scores with
    | none => none
    | some winner =>
      let total_confidence := (class_scores.map (fun e => e.2)).sum
      let winner_confidence :=
        if 0 < total_confidence then lookupD class_scores winner 0 / total_confidence
        else 0
      some { predicted_typology := winner
             aggregated_confidence := round4 winner_confidence
             num_frames_analyzed := predictions.length
             num_frames_agreeing := lookupD class_counts winner 0 }

/-! ## `detect_changes` (change_engine.py lines 50–93) -/

/-- The report dict built in the `detect_changes` loop body for a property
whose aggregation succeeded. -/
def mkReport (p : PropertyPrediction) (agg : Agg) (confidence_threshold : ℚ) :
    ChangeReport :=
  let is_mismatch : Bool :=
    match p.existing_typology with
    | none => false
    | some e =>
      decide (agg.predicted_typology ≠ e) &&
      decide (confidence_threshold ≤ agg.aggregated_confidence)
  { property_id := p.property_id
    existing_typology := p.existing_typology
    predicted_typology := agg.predicted_typology
    aggregated_confidence := agg.aggregated_confidence
    num_frames_analyzed := agg.num_frames_analyzed
    num_frames_agreeing := agg.num_frames_agreeing
    status := if is_mismatch then "flagged" else "confirmed" }

/-- Shallow embedding of `detect_changes(properties_with_predictions,
confidence_threshold)`, with `MIN_FRAMES_FOR_PREDICTION` explicit as
`minFrames`.  Properties whose aggregation returns `None` are skipped
(`continue`), all others get exactly one report appended in order. -/
def detect_changes : List PropertyPrediction → ℚ → ℕ → List ChangeReport
  | [], _, _ => []
  | p :: rest, confidence_threshold, minFrames =>
    match aggregate_predictions p.predictions minFrames with
    | none => detect_changes rest confidence_threshold minFrames
    | some agg =>
      mkReport p agg confidence_threshold ::
        detect_changes rest confidence_threshold minFrames

/-! ## GPS track interpolation (backend/utils/gps_utils.py lines 18–47) -/

/-- One GPS track point dict `{"time": float, "lat": float, "lon": float}`. -/
structure TrackPoint where
  time : ℚ
  lat : ℚ
  lon : ℚ
  deriving DecidableEq

/-- Default track point, used only as the out-of-range default of positional
accessors in theorem statements. -/
def dTP : TrackPoint := ⟨0, 0, 0⟩

/-- A track is sorted when its times are monotonically non-decreasing. -/
def TimeSorted (points : List TrackPoint) : Prop :=
  points.Chain' (fun a b => a.time ≤ b.time)

/-- Sortedness is decided by walking the consecutive pairs (spelled out so
that concrete instances reduce). -/
instance timeSortedDec : (points : List TrackPoint) → Decidable (TimeSorted points)
  | [] => isTrue List.chain'_nil
  | [p] => isTrue (List.chain'_singleton p)
  | a :: b :: rest =>
    if h : a.time ≤ b.time then
      match timeSortedDec (b :: rest) with
      | isTrue ht => isTrue (List.chain'_cons.2 ⟨h, ht⟩)
      | isFalse hf => isFalse (fun hc => hf (List.chain'_cons.1 hc).2)
    else isFalse (fun hc => h (List.chain'_cons.1 hc).1)

/-- The loop body value of `interpolate_gps` for a bracketing pair: linear
interpolation of `lat` and `lon` at
`ratio = (target_time - t0) / (t1 - t0)`, with `ratio = 0` when `t1 == t0`. -/
def lerpPair (a b : TrackPoint) (target_time : ℚ) : ℚ × ℚ :=
  let ratio : ℚ := if b.time = a.time then 0 else (target_time - a.time) / (b.time - a.time)
  (a.lat + ratio * (b.lat - a.lat), a.lon + ratio * (b.lon - a.lon))

/-- The `for i in range(len(points) - 1)` scan of `interpolate_gps`: walk the
consecutive pairs and return the interpolation at the first pair with
`t0 <= target_time <= t1`, else fall through to `None`. -/
def scanPairs : List TrackPoint → ℚ → Option (ℚ × ℚ)
  | a :: b :: rest, target_time =>
    if a.time ≤ target_time ∧ target_time ≤ b.time then some (lerpPair a b target_time)
    else scanPairs (b :: rest) target_time
  | _, _ => none

/-- Shallow embedding of `interpolate_gps(points, target_time)`:
fewer than 2 points → `None`; clamp to the first point at or before its time;
clamp to the last point at or after its time; otherwise scan for the first
bracketing pair. -/
def interpolate_gps (points : List TrackPoint) (target_time : ℚ) :
    Option (ℚ × ℚ) :=
  match points with
  | [] => none
  | [_] => none
  | p0 :: p1 :: rest =>
    if target_time ≤ p0.time then some (p0.lat, p0.lon)
    else if ((p0 :: p1 :: rest).getLastD dTP).time ≤ target_time then
      some (((p0 :: p1 :: rest).getLastD dTP).lat, ((p0 :: p1 :: rest).getLastD dTP).lon)
    else scanPairs (p0 :: p1 :: rest) target_time

/-! ## Geo matcher (backend/services/geo_matcher.py)

The matcher calls shapely (`shape`, `Polygon.contains`, `STRtree.query`,
`Polygon.centroid`, `boundary.interpolate(boundary.project(·))`) and pyproj
(`Transformer EPSG:4326 → EPSG:32644`).  These external library operations are
abstracted into `GeoPrims`; the matching algorithm itself is embedded from the
source over that interface.  Euclidean distances `Point.distance` are square
roots; every use in the source is a comparison, so we carry squared distances
and compare with the exactly equivalent square-free tests `sqrtLtB` / `sqrtGtB`.
-/

/-- A geographic or projected point `(x, y)`; the source builds
`Point(lon, lat)`, so `x` is longitude and `y` latitude. -/
abbrev Pt : Type := ℚ × ℚ

/-- Squared Euclidean distance; `shapely.Point.distance` is its square root. -/
def d2 (p q : Pt) : ℚ := (p.1 - q.1) ^ 2 + (p.2 - q.2) ^ 2

/-- `Real.sqrt a < b` decided on squares, for `a ≥ 0` (a squared distance). -/
def sqrtLtB (a b : ℚ) : Bool := decide (0 < b) && decide (a < b * b)

/-- `Real.sqrt a > c` decided on squares, for `a ≥ 0` (a squared distance). -/
def sqrtGtB (a c : ℚ) : Bool := decide (c < 0) || decide (c * c < a)

/-- Abstract interface to the geometry library operations used by
`match_frames_to_properties`:

* `contains` — `polygon.contains(point)` (true exactly on the interior);
* `queryPoint polys pt` — `STRtree(polys).query(pt)`: indices of polygons
  whose bounding box hits the point;
* `queryBuffer polys pt r` — `STRtree(polys).query(pt.buffer(r))`: indices of
  polygons whose bounding box hits the buffer disc of radius `r`;
* `centroid` — `polygon.centroid`;
* `nearestBoundary poly pt` —
  `poly.boundary.interpolate(poly.boundary.project(pt))`;
* `toUTM` — `Transformer.from_crs("EPSG:4326", "EPSG:32644").transform`. -/
structure GeoPrims (Poly : Type) where
  contains : Poly → Pt → Bool
  queryPoint : List Poly → Pt → List ℕ
  queryBuffer : List Poly → Pt → ℚ → List ℕ
  centroid : Poly → Pt
  nearestBoundary : Poly → Pt → Pt
  toUTM : Pt → Pt

/-- A property dict as consumed by `_build_index`: an id and the result of
`shape(json.loads(prop["polygon_geojson"]))`, which is `none` when that parse
raised (the `except: continue` path). -/
structure GeoProperty (Poly : Type) where
  id : ℤ
  polygon_geojson : Option Poly

/-- A frame dict `{'id', 'gps_lat', 'gps_lon'}` with possibly missing GPS. -/
structure Frame where
  id : ℤ
  gps_lat : Option ℚ
  gps_lon : Option ℚ
  deriving DecidableEq

/-- `_build_index(properties)`: parse every polygon, skipping failures, and
return the parallel lists `(polygons, prop_ids)`. -/
def build_index {Poly : Type} : List (GeoProperty Poly) → List Poly × List ℤ
  | [] => ([], [])
  | p :: rest =>
    let (polys, ids) := build_index rest
    match p.polygon_geojson with
    | some g => (g :: polys, p.id :: ids)
    | none => (polys, ids)

/-! ### Python dict of results -/

/-- Python dict assignment `d[k] = v` on an association list: overwrite the
first matching key in place, else append. -/
def dinsert : List (ℤ × Option ℤ) → ℤ → Option ℤ → List (ℤ × Option ℤ)
  | [], k, v => [(k, v)]
  | (k', v') :: rest, k, v =>
    if k' = k then (k, v) :: rest else (k', v') :: dinsert rest k v

/-- First-occurrence association-list lookup. -/
def alookup : List (ℤ × Option ℤ) → ℤ → Option (Option ℤ)
  | [], _ => none
  | (k, v) :: rest, q => if k = q then some v else alookup rest q

/-- Python `results.get(k)`: `None` both for a missing key and a stored `None`. -/
def pyGet (d : List (ℤ × Option ℤ)) (q : ℤ) : Option ℤ :=
  match alookup d q with
  | some v => v
  | none => none

/-! ### The two matching passes -/

/-- Pass 1 (lines 76–82): iterate the index hits and return the id of the first
candidate polygon that contains the point.  An out-of-range index (impossible
for a correct spatial index, and an `IndexError` in Python) is skipped. -/
def pass1 {Poly : Type} (ops : GeoPrims Poly) (polys : List Poly) (ids : List ℤ)
    (pt : Pt) : List ℕ → Option ℤ
  | [] => none
  | i :: rest =>
    match polys[i]? with
    | some poly =>
      if ops.contains poly pt then some (ids.getD i 0)
      else pass1 ops polys ids pt rest
    | none => pass1 ops polys ids pt rest

/-- Squared metric-projection distance from the (projected) point to the
nearest boundary point of candidate `i` (lines 115–118); `0` for an
out-of-range index (unreachable for a correct spatial index). -/
def edgeD2 {Poly : Type} (ops : GeoPrims Poly) (polys : List Poly)
    (pt ptU : Pt) (i : ℕ) : ℚ :=
  match polys[i]? with
  | some poly => d2 ptU (ops.toUTM (ops.nearestBoundary poly pt))
  | none => 0

/-- Squared metric-projection distance from the point to candidate `i`'s
centroid (lines 106–111). -/
def centroidD2 {Poly : Type} (ops : GeoPrims Poly) (polys : List Poly)
    (ptU : Pt) (i : ℕ) : ℚ :=
  match polys[i]? with
  | some poly => d2 ptU (ops.toUTM (ops.centroid poly))
  | none => 0

/-- Candidate `i` is accepted by the pass-2 loop body filters: it has a valid
polygon, its centroid distance does not exceed `3 * buffer_meters`
(`approx_dist > buffer_meters * 3 → continue`), and its boundary distance is
strictly below `buffer_meters`. -/
def accepted {Poly : Type} (ops : GeoPrims Poly) (polys : List Poly)
    (pt ptU : Pt) (buffer_meters : ℚ) (i : ℕ) : Bool :=
  match polys[i]? with
  | some _ =>
    !sqrtGtB (centroidD2 ops polys ptU i) (buffer_meters * 3) &&
      sqrtLtB (edgeD2 ops polys pt ptU i) buffer_meters
  | none => false

/-- Pass 2 loop (lines 101–124): running best `(best_id, best_dist)` pair,
`none` standing for `(None, inf)`; the best is replaced only when
`dist < buffer_meters and dist < best_dist`. -/
def pass2Aux {Poly : Type} (ops : GeoPrims Poly) (polys : List Poly)
    (ids : List ℤ) (pt ptU : Pt) (buffer_meters : ℚ) :
    List ℕ → Option (ℤ × ℚ) → Option (ℤ × ℚ)
  | [], best => best
  | i :: rest, best =>
    match polys[i]? with
    | none => pass2Aux ops polys ids pt ptU buffer_meters rest best
    | some _ =>
      if sqrtGtB (centroidD2 ops polys ptU i) (buffer_meters * 3) then
        pass2Aux ops polys ids pt ptU buffer_meters rest best
      else
        let e := edgeD2 ops polys pt ptU i
        if sqrtLtB e buffer_meters &&
            (match best with
             | none => true
             | some (_, bd) => decide (e < bd)) then
          pass2Aux ops polys ids pt ptU buffer_meters rest (some (ids.getD i 0, e))
        else pass2Aux ops polys ids pt ptU buffer_meters rest best

/-- One pass-2 loop step, written through the `accepted` filter: used to
characterise `pass2Aux` (proved equal to it stepwise below). -/
def stepBest {Poly : Type} (ops : GeoPrims Poly) (polys : List Poly)
    (ids : List ℤ) (pt ptU : Pt) (buffer_meters : ℚ) (i : ℕ) :
    Option (ℤ × ℚ) → Option (ℤ × ℚ)
  | none =>
    if accepted ops polys pt ptU buffer_meters i = true then
      some (ids.getD i 0, edgeD2 ops polys pt ptU i)
    else none
  | some (q, bd) =>
    if accepted ops polys pt ptU buffer_meters i = true then
      if edgeD2 ops polys pt ptU i < bd then
        some (ids.getD i 0, edgeD2 ops polys pt ptU i)
      else some (q, bd)
    else some (q, bd)

/-- The per-frame body of the matching loop (lines 67–126) for a frame with
GPS fields `glat`, `glon`: missing GPS → `None`; else pass 1 on the point
query hits, falling back to the buffered pass 2. -/
def processFrame {Poly : Type} (ops : GeoPrims Poly) (polys : List Poly)
    (ids : List ℤ) (buffer_meters : ℚ) (glat glon : Option ℚ) : Option ℤ :=
  match glat, glon with
  | some lat, some lon =>
    let pt : Pt := (lon, lat)
    match pass1 ops polys ids pt (ops.queryPoint polys pt) with
    | some found => some found
    | none =>
      let degree_buffer := buffer_meters / 111000
      let nearby := ops.queryBuffer polys pt degree_buffer
      let ptU := ops.toUTM pt
      (pass2Aux ops polys ids pt ptU buffer_meters nearby none).map (fun b => b.1)
  | _, _ => none

/-- The `for frame in frames` loop writing `results[frame["id"]]`. -/
def frameFold {Poly : Type} (ops : GeoPrims Poly) (polys : List Poly)
    (ids : List ℤ) (buffer_meters : ℚ) (acc : List (ℤ × Option ℤ)) :
    List Frame → List (ℤ × Option ℤ)
  | [] => acc
  | f :: rest =>
    frameFold ops polys ids buffer_meters
      (dinsert acc f.id (processFrame ops polys ids buffer_meters f.gps_lat f.gps_lon))
      rest

/-- Shallow embedding of `match_frames_to_properties(frames, properties,
buffer_meters)` over the abstract geometry interface. -/
def match_frames_to_properties {Poly : Type} (ops : GeoPrims Poly)
    (frames : List Frame) (properties : List (GeoProperty Poly))
    (buffer_meters : ℚ) : List (ℤ × Option ℤ) :=
  if properties.isEmpty || frames.isEmpty then []
  else
    let built := build_index properties
    frameFold ops built.1 built.2 buffer_meters [] frames

/-- Shallow embedding of `match_frame_to_property(frame_lat, frame_lon,
properties, buffer_meters)`: batch call on one frame with id 0, then `.get(0)`. -/
def match_frame_to_property {Poly : Type} (ops : GeoPrims Poly)
    (frame_lat frame_lon : ℚ) (properties : List (GeoProperty Poly))
    (buffer_meters : ℚ) : Option ℤ :=
  pyGet
    (match_frames_to_properties ops
      [{ id := 0, gps_lat := some frame_lat, gps_lon := some frame_lon }]
      properties buffer_meters) 0

/-! ### A concrete executable geometry instance: axis-aligned rectangles

Used to instantiate witnesses and counterexamples.  For rectangles every
shapely operation the matcher uses has an exact closed form: `contains` is the
open box test, the STRtree bounding box of a rectangle is its closure, the
bounding box of `pt.buffer(r)` is the square of radius `r` (the buffer polygon
has its axis-extreme vertices exactly at distance `r`), the centroid is the
center, and the nearest boundary point of an exterior point is the clamp onto
the closed box.  The projection to EPSG:32644 is modelled as the local linear
metric map scaling degrees by 111000 (the same constant the source uses for
its degree/meter conversion). -/

/-- An axis-aligned rectangle polygon `[x0, x1] × [y0, y1]`. -/
structure Rect where
  x0 : ℚ
  x1 : ℚ
  y0 : ℚ
  y1 : ℚ
  deriving DecidableEq

/-- Interior membership: shapely `contains` for a rectangle. -/
def Rect.containsB (r : Rect) (p : Pt) : Bool :=
  decide (r.x0 < p.1) && decide (p.1 < r.x1) &&
    decide (r.y0 < p.2) && decide (p.2 < r.y1)

/-- Closed bounding-box membership: an STRtree point query hit. -/
def Rect.inBBox (r : Rect) (p : Pt) : Bool :=
  decide (r.x0 ≤ p.1) && decide (p.1 ≤ r.x1) &&
    decide (r.y0 ≤ p.2) && decide (p.2 ≤ r.y1)

/-- The rectangle's closed bounding box meets the bounding box of the buffer
disc of radius `rad` around `c`: an STRtree buffer query hit. -/
def Rect.hitsBufferBox (r : Rect) (c : Pt) (rad : ℚ) : Bool :=
  decide (r.x0 ≤ c.1 + rad) && decide (c.1 - rad ≤ r.x1) &&
    decide (r.y0 ≤ c.2 + rad) && decide (c.2 - rad ≤ r.y1)

/-- Clamp `v` into `[lo, hi]`. -/
def clampQ (lo hi v : ℚ) : ℚ := if v < lo then lo else if hi < v then hi else v

/-- Nearest point of the rectangle's boundary: for an exterior (or boundary)
point the clamp onto the closed box; for an interior point the projection to
the nearest edge. -/
def Rect.nearestB (r : Rect) (p : Pt) : Pt :=
  if r.containsB p then
    let dl := p.1 - r.x0
    let dr := r.x1 - p.1
    let db := p.2 - r.y0
    let dt := r.y1 - p.2
    if dl ≤ dr ∧ dl ≤ db ∧ dl ≤ dt then (r.x0, p.2)
    else if dr ≤ db ∧ dr ≤ dt then (r.x1, p.2)
    else if db ≤ dt then (p.1, r.y0)
    else (p.1, r.y1)
  else (clampQ r.x0 r.x1 p.1, clampQ r.y0 r.y1 p.2)

/-- The rectangle instance of the geometry interface. -/
def rectOps : GeoPrims Rect where
  contains := Rect.containsB
  queryPoint := fun polys pt =>
    (List.range polys.length).filter fun i =>
      match polys[i]? with
      | some r => r.inBBox pt
      | none => false
  queryBuffer := fun polys pt rad =>
    (List.range polys.length).filter fun i =>
      match polys[i]? with
      | some r => r.hitsBufferBox pt rad
      | none => false
  centroid := fun r => ((r.x0 + r.x1) / 2, (r.y0 + r.y1) / 2)
  nearestBoundary := Rect.nearestB
  toUTM := fun p => (111000 * p.1, 111000 * p.2)

/-! ## Specification-side helpers for the aggregation theorems -/

/-- The distinct values of a list in order of first occurrence, skipping the
values already `seen`. -/
def distinctFirstAux : List String → List String → List String
  | [], _ => []
  | c :: cs, seen =>
    if c ∈ seen then distinctFirstAux cs seen
    else c :: distinctFirstAux cs (c :: seen)

/-- The distinct values of a list in order of first occurrence. -/
def distinctFirst (cs : List String) : List String := distinctFirstAux cs []

/-- Total of `g` over the predictions voting for class `c` (the summed
confidence mass of `c` when `g` is the confidence, its vote count when `g = 1`). -/
def classTotal {α : Type} [AddMonoid α] (g : Prediction → α) :
    List Prediction → String → α
  | [], _ => 0
  | p :: rest, c => (if p.predicted_class = c then g p else 0) + classTotal g rest c

/-- The first element of `w :: l` attaining the maximum of `f`. -/
def firstMaxBy (f : String → ℚ) : String → List String → String
  | w, [] => w
  | w, c :: cs => if f w < f c then firstMaxBy f c cs else firstMaxBy f w cs

/-- The intended aggregation result for a prediction list whose distinct
classes, in first-occurrence order, are `c0 :: cl`: the winner is the
first-encountered class of maximal summed confidence, its confidence the
winner's mass over the total mass (0 when the total mass is 0) rounded to four
decimals, `considered` the sample count and `agreeing` the winner's vote count. -/
def aggSpec (preds : List Prediction) (c0 : String) (cl : List String) : Agg :=
  { predicted_typology := firstMaxBy (classTotal (fun p => p.confidence) preds) c0 cl
    aggregated_confidence :=
      round4 (if 0 < (preds.map (fun p => p.confidence)).sum then
        classTotal (fun p => p.confidence) preds
            (firstMaxBy (classTotal (fun p => p.confidence) preds) c0 cl) /
          (preds.map (fun p => p.confidence)).sum
        else 0)
    num_frames_analyzed := preds.length
    num_frames_agreeing :=
      classTotal (fun _ => (1 : ℕ)) preds
        (firstMaxBy (classTotal (fun p => p.confidence) preds) c0 cl) }

/-! ### Lemmas about the helpers -/

lemma mem_distinctFirstAux : ∀ (cs seen : List String) (x : String),
    x ∈ distinctFirstAux cs seen ↔ x ∈ cs ∧ x ∉ seen := by
  intro cs
  induction cs with
  | nil => intro seen x; simp [distinctFirstAux]
  | cons c cs ih =>
    intro seen x
    by_cases hc : c ∈ seen
    · rw [distinctFirstAux, if_pos hc, ih]
      constructor
      · rintro ⟨hx, hns⟩
        exact ⟨List.mem_cons_of_mem _ hx, hns⟩
      · rintro ⟨hx, hns⟩
        rcases List.mem_cons.1 hx with rfl | hx
        · exact absurd hc hns
        · exact ⟨hx, hns⟩
    · rw [distinctFirstAux, if_neg hc]
      constructor
      · intro hx
        rcases List.mem_cons.1 hx with rfl | hx
        · exact ⟨List.mem_cons_self _ _, hc⟩
        · rw [ih] at hx
          obtain ⟨h1, h2⟩ := hx
          exact ⟨List.mem_cons_of_mem _ h1,
            fun hs => h2 (List.mem_cons_of_mem _ hs)⟩
      · rintro ⟨hx, hns⟩
        rcases List.mem_cons.1 hx with rfl | hx
        · exact List.mem_cons_self _ _
        · by_cases hxc : x = c
          · subst hxc; exact List.mem_cons_self _ _
          · refine List.mem_cons_of_mem _ ((ih _ x).2 ⟨hx, fun hs => ?_⟩)
            rcases List.mem_cons.1 hs with h | h
            · exact hxc h
            · exact hns h

lemma nodup_distinctFirstAux : ∀ (cs seen : List String),
    (distinctFirstAux cs seen).Nodup := by
  intro cs
  induction cs with
  | nil => intro seen; simp [distinctFirstAux]
  | cons c cs ih =>
    intro seen
    by_cases hc : c ∈ seen
    · rw [distinctFirstAux, if_pos hc]; exact ih seen
    · rw [distinctFirstAux, if_neg hc]
      refine List.nodup_cons.2 ⟨fun hmem => ?_, ih _⟩
      rw [mem_distinctFirstAux] at hmem
      exact hmem.2 (List.mem_cons_self _ _)

lemma mem_distinctFirst (cs : List String) (x : String) :
    x ∈ distinctFirst cs ↔ x ∈ cs := by
  rw [distinctFirst, mem_distinctFirstAux]
  simp

lemma nodup_distinctFirst (cs : List String) : (distinctFirst cs).Nodup :=
  nodup_distinctFirstAux cs []

lemma distinctFirstAux_append : ∀ (cs seen : List String) (c : String),
    distinctFirstAux (cs ++ [c]) seen =
      distinctFirstAux cs seen ++ (if c ∈ seen ∨ c ∈ cs then [] else [c]) := by
  intro cs
  induction cs with
  | nil =>
    intro seen c
    by_cases h : c ∈ seen
    · simp [distinctFirstAux, h]
    · simp [distinctFirstAux, h]
  | cons a cs ih =>
    intro seen c
    by_cases ha : a ∈ seen
    · rw [List.cons_append, distinctFirstAux, if_pos ha, distinctFirstAux,
        if_pos ha, ih]
      have hiff : (c ∈ seen ∨ c ∈ cs) ↔ (c ∈ seen ∨ c ∈ a :: cs) := by
        constructor
        · rintro (h | h)
          · exact Or.inl h
          · exact Or.inr (List.mem_cons_of_mem _ h)
        · rintro (h | h)
          · exact Or.inl h
          · rcases List.mem_cons.1 h with rfl | h
            · exact Or.inl ha
            · exact Or.inr h
      rw [if_congr hiff rfl rfl]
    · rw [List.cons_append, distinctFirstAux, if_neg ha, distinctFirstAux,
        if_neg ha, ih, List.cons_append]
      have hiff : (c ∈ a :: seen ∨ c ∈ cs) ↔ (c ∈ seen ∨ c ∈ a :: cs) := by
        constructor
        · rintro (h | h)
          · rcases List.mem_cons.1 h with rfl | h
            · exact Or.inr (List.mem_cons_self _ _)
            · exact Or.inl h
          · exact Or.inr (List.mem_cons_of_mem _ h)
        · rintro (h | h)
          · exact Or.inl (List.mem_cons_of_mem _ h)
          · rcases List.mem_cons.1 h with rfl | h
            · exact Or.inl (List.mem_cons_self _ _)
            · exact Or.inr h
      rw [if_congr hiff rfl rfl]

lemma distinctFirst_append (cs : List String) (c : String) :
    distinctFirst (cs ++ [c])
      = distinctFirst cs ++ (if c ∈ cs then [] else [c]) := by
  rw [distinctFirst, distinctFirstAux_append, distinctFirst]
  congr 1
  have hiff : (c ∈ ([] : List String) ∨ c ∈ cs) ↔ c ∈ cs := by simp
  rw [if_congr hiff rfl rfl]

lemma classTotal_append {α : Type} [AddMonoid α] (g : Prediction → α) :
    ∀ (l : List Prediction) (p : Prediction) (c : String),
      classTotal g (l ++ [p]) c
        = classTotal g l c + (if p.predicted_class = c then g p else 0) := by
  intro l
  induction l with
  | nil => intro p c; simp [classTotal]
  | cons q l ih =>
    intro p c
    rw [List.cons_append, classTotal, classTotal, ih, add_assoc]

lemma classTotal_eq_zero {α : Type} [AddMonoid α] (g : Prediction → α) :
    ∀ (l : List Prediction) (c : String),
      c ∉ l.map (fun p => p.predicted_class) → classTotal g l c = 0 := by
  intro l
  induction l with
  | nil => intro c _; rfl
  | cons p l ih =>
    intro c hc
    simp only [List.map_cons, List.mem_cons] at hc
    push_neg at hc
    rw [classTotal, if_neg (fun h => hc.1 h.symm), zero_add]
    exact ih c hc.2

lemma tallyAux_map {α : Type} [AddMonoid α] (f : String → α) :
    ∀ (l : List String), l.Nodup → ∀ (c : String) (v : α), (c ∉ l → f c = 0) →
      tallyAux (l.map fun d => (d, f d)) c v
        = (if c ∈ l then l else l ++ [c]).map
            (fun d => (d, f d + if d = c then v else 0)) := by
  intro l
  induction l with
  | nil =>
    intro _ c v h0
    simp [tallyAux, h0 (by simp)]
  | cons a l ih =>
    intro hnd c v h0
    rw [List.map_cons, tallyAux]
    by_cases hac : a = c
    · subst hac
      rw [if_pos rfl, if_pos (List.mem_cons_self _ _), List.map_cons, if_pos rfl]
      congr 1
      refine List.map_congr_left fun d hd => ?_
      have hda : d ≠ a := fun h => (List.nodup_cons.1 hnd).1 (h ▸ hd)
      simp [hda]
    · rw [if_neg hac]
      have hnl := (List.nodup_cons.1 hnd).2
      have h0' : c ∉ l → f c = 0 := fun hcl =>
        h0 (by
          intro h
          rcases List.mem_cons.1 h with h | h
          · exact hac h.symm
          · exact hcl h)
      rw [ih hnl c v h0']
      by_cases hcl : c ∈ l
      · rw [if_pos hcl, if_pos (List.mem_cons_of_mem _ hcl), List.map_cons]
        congr 1
        simp [hac]
      · have hcal : c ∉ a :: l := by
          intro h
          rcases List.mem_cons.1 h with h | h
          · exact hac h.symm
          · exact hcl h
        rw [if_neg hcl, if_neg hcal, List.cons_append, List.map_cons]
        congr 1
        simp [hac]

lemma tally_append {α : Type} [Add α] (g : Prediction → α)
    (l : List Prediction) (p : Prediction) :
    tally g (l ++ [p]) = tallyAux (tally g l) p.predicted_class (g p) := by
  simp [tally, List.foldl_append]

/-- The dict `class_scores`/`class_counts` built by the aggregation loop is
exactly: the distinct classes in first-occurrence order, each paired with its
accumulated total. -/
lemma tally_eq {α : Type} [AddMonoid α] (g : Prediction → α) :
    ∀ preds : List Prediction,
      tally g preds
        = (distinctFirst (preds.map (fun p => p.predicted_class))).map
            (fun c => (c, classTotal g preds c)) := by
  intro preds
  induction preds using List.reverseRecOn with
  | nil => rfl
  | append_singleton l p ih =>
    rw [tally_append, ih,
      tallyAux_map (fun c => classTotal g l c)
        (distinctFirst (l.map (fun p => p.predicted_class)))
        (nodup_distinctFirst _) p.predicted_class (g p)
        (fun hn => classTotal_eq_zero g l _
          (fun hm => hn ((mem_distinctFirst _ _).2 hm)))]
    rw [List.map_append, List.map_cons, List.map_nil, distinctFirst_append]
    by_cases hc : p.predicted_class ∈ l.map (fun p => p.predicted_class)
    · rw [if_pos hc, if_pos ((mem_distinctFirst _ _).2 hc), List.append_nil]
      refine List.map_congr_left fun d _ => ?_
      rw [classTotal_append]
      by_cases hd : d = p.predicted_class
      · simp [hd]
      · rw [if_neg hd, if_neg (fun h => hd h.symm)]
    · rw [if_neg hc, if_neg (fun h => hc ((mem_distinctFirst _ _).1 h))]
      refine List.map_congr_left fun d _ => ?_
      rw [classTotal_append]
      by_cases hd : d = p.predicted_class
      · simp [hd]
      · rw [if_neg hd, if_neg (fun h => hd h.symm)]

lemma tallyAux_valsum {α : Type} [AddCommMonoid α] :
    ∀ (s : List (String × α)) (c : String) (v : α),
      ((tallyAux s c v).map (fun e => e.2)).sum
        = (s.map (fun e => e.2)).sum + v := by
  intro s
  induction s with
  | nil => intro c v; simp [tallyAux]
  | cons e s ih =>
    intro c v
    obtain ⟨k, sv⟩ := e
    rw [tallyAux]
    by_cases h : k = c
    · rw [if_pos h]
      simp [add_right_comm, add_assoc, add_comm v]
    · rw [if_neg h]
      simp [ih, add_assoc]

/-- `total_confidence = sum(class_scores.values())` equals the plain sum of
all sample values. -/
lemma tally_valsum {α : Type} [AddCommMonoid α] (g : Prediction → α) :
    ∀ (preds : List Prediction) (acc : List (String × α)),
      (((preds.foldl (fun acc p => tallyAux acc p.predicted_class (g p)) acc)).map
          (fun e => e.2)).sum
        = (acc.map (fun e => e.2)).sum + (preds.map g).sum := by
  intro preds
  induction preds with
  | nil => intro acc; simp
  | cons p preds ih =>
    intro acc
    simp only [List.foldl_cons, List.map_cons, List.sum_cons]
    rw [ih, tallyAux_valsum, add_assoc]

lemma lookupD_map {α : Type} (f : String → α) (d : α) :
    ∀ (l : List String) (w : String), w ∈ l →
      lookupD (l.map fun c => (c, f c)) w d = f w := by
  intro l
  induction l with
  | nil => intro w h; cases h
  | cons a l ih =>
    intro w hw
    rw [List.map_cons, lookupD]
    by_cases h : a = w
    · rw [if_pos h, h]
    · rw [if_neg h]
      rcases List.mem_cons.1 hw with rfl | hw
      · exact absurd rfl h
      · exact ih w hw

lemma maxKeyAux_map (f : String → ℚ) :
    ∀ (l : List String) (w : String),
      maxKeyAux w (f w) (l.map fun c => (c, f c)) = firstMaxBy f w l := by
  intro l
  induction l with
  | nil => intro w; rfl
  | cons c l ih =>
    intro w
    rw [List.map_cons, maxKeyAux, firstMaxBy]
    by_cases h : f w < f c
    · rw [if_pos h, if_pos h, ih]
    · rw [if_neg h, if_neg h, ih]

lemma winnerOf_map (f : String → ℚ) (c0 : String) (l : List String) :
    winnerOf ((c0 :: l).map fun c => (c, f c)) = some (firstMaxBy f c0 l) := by
  rw [List.map_cons, winnerOf, maxKeyAux_map]

lemma firstMaxBy_mem (f : String → ℚ) :
    ∀ (l : List String) (w : String), firstMaxBy f w l ∈ w :: l := by
  intro l
  induction l with
  | nil => intro w; exact List.mem_cons_self _ _
  | cons c l ih =>
    intro w
    rw [firstMaxBy]
    by_cases h : f w < f c
    · rw [if_pos h]
      exact List.mem_cons_of_mem _ (ih c)
    · rw [if_neg h]
      rcases List.mem_cons.1 (ih w) with h' | h'
      · rw [h']; exact List.mem_cons_self _ _
      · exact List.mem_cons_of_mem _ (List.mem_cons_of_mem _ h')

lemma firstMaxBy_ge (f : String → ℚ) :
    ∀ (l : List String) (w c : String), c ∈ w :: l →
      f c ≤ f (firstMaxBy f w l) := by
  intro l
  induction l with
  | nil =>
    intro w c hc
    rcases List.mem_cons.1 hc with rfl | hc
    · exact le_refl _
    · cases hc
  | cons a l ih =>
    intro w c hc
    rw [firstMaxBy]
    by_cases h : f w < f a
    · rw [if_pos h]
      rcases List.mem_cons.1 hc with rfl | hc
      · exact le_trans h.le (ih a a (List.mem_cons_self _ _))
      · exact ih a c hc
    · rw [if_neg h]
      rcases List.mem_cons.1 hc with h1 | h1
      · rw [h1]; exact ih w w (List.mem_cons_self _ _)
      · rcases List.mem_cons.1 h1 with h2 | h2
        · rw [h2]; exact le_trans (not_lt.1 h) (ih w w (List.mem_cons_self _ _))
        · exact ih w c (List.mem_cons_of_mem _ h2)

lemma classTotal_one_eq_countP :
    ∀ (l : List Prediction) (c : String),
      classTotal (fun _ => (1 : ℕ)) l c
        = l.countP (fun p => decide (p.predicted_class = c)) := by
  intro l
  induction l with
  | nil => intro c; rfl
  | cons p l ih =>
    intro c
    rw [classTotal, ih, List.countP_cons]
    by_cases h : p.predicted_class = c
    · simp [h, add_comm]
    · simp [h]

lemma tally_confsum (g : Prediction → ℚ) (preds : List Prediction) :
    ((tally g preds).map (fun e => e.2)).sum = (preds.map g).sum := by
  rw [tally, tally_valsum]
  simp

/-- A successful `aggregate_predictions` computes exactly `aggSpec` at the
head/tail split of the distinct class list. -/
lemma aggregate_eq_spec (preds : List Prediction) (minFrames : ℕ)
    (h1 : 1 ≤ minFrames) (h2 : minFrames ≤ preds.length) :
    ∃ c0 cl,
      distinctFirst (preds.map (fun p => p.predicted_class)) = c0 :: cl ∧
      aggregate_predictions preds minFrames = some (aggSpec preds c0 cl) := by
  have hne : preds ≠ [] := by
    intro h
    rw [h] at h2
    simp at h2
    omega
  obtain ⟨q, qs, rfl⟩ := List.exists_cons_of_ne_nil hne
  have hmem : q.predicted_class
      ∈ distinctFirst ((q :: qs).map (fun p => p.predicted_class)) := by
    rw [mem_distinctFirst]
    simp
  obtain ⟨c0, cl, hd⟩ := List.exists_cons_of_ne_nil (List.ne_nil_of_mem hmem)
  refine ⟨c0, cl, hd, ?_⟩
  have hscores : tally (fun p => p.confidence) (q :: qs)
      = (c0 :: cl).map
          (fun c => (c, classTotal (fun p => p.confidence) (q :: qs) c)) := by
    rw [tally_eq, hd]
  have hcounts : tally (fun _ => (1 : ℕ)) (q :: qs)
      = (c0 :: cl).map
          (fun c => (c, classTotal (fun _ => (1 : ℕ)) (q :: qs) c)) := by
    rw [tally_eq, hd]
  have htotal : ((tally (fun p => p.confidence) (q :: qs)).map
      (fun e => e.2)).sum = ((q :: qs).map (fun p => p.confidence)).sum :=
    tally_confsum _ _
  have hwinner : winnerOf (tally (fun p => p.confidence) (q :: qs))
      = some (firstMaxBy (classTotal (fun p => p.confidence) (q :: qs)) c0 cl) := by
    rw [hscores, winnerOf_map]
  have hwm : firstMaxBy (classTotal (fun p => p.confidence) (q :: qs)) c0 cl
      ∈ c0 :: cl :=
    firstMaxBy_mem (classTotal (fun p => p.confidence) (q :: qs)) cl c0
  simp only [aggregate_predictions]
  rw [if_neg (not_lt.2 h2), htotal]
  simp only [hwinner]
  rw [hscores, hcounts,
    lookupD_map (fun c => classTotal (fun p => p.confidence) (q :: qs) c) 0
      (c0 :: cl) _ hwm,
    lookupD_map (fun c => classTotal (fun _ => (1 : ℕ)) (q :: qs) c) 0
      (c0 :: cl) _ hwm]
  rfl

lemma aggregate_none_of_lt (preds : List Prediction) (minFrames : ℕ)
    (h : preds.length < minFrames) :
    aggregate_predictions preds minFrames = none := by
  rw [aggregate_predictions, if_pos h]

lemma aggregate_some_le (preds : List Prediction) (minFrames : ℕ) (agg : Agg)
    (h : aggregate_predictions preds minFrames = some agg) :
    minFrames ≤ preds.length := by
  by_contra hlt
  rw [aggregate_none_of_lt preds minFrames (not_le.1 hlt)] at h
  cases h

/-- A report is in the output of `detect_changes` exactly when it is the report
of some input property whose aggregation succeeded. -/
lemma mem_detect_changes (props : List PropertyPrediction)
    (confidence_threshold : ℚ) (minFrames : ℕ) (r : ChangeReport) :
    r ∈ detect_changes props confidence_threshold minFrames
      ↔ ∃ p ∈ props, ∃ agg,
          aggregate_predictions p.predictions minFrames = some agg ∧
          r = mkReport p agg confidence_threshold := by
  induction props with
  | nil => simp [detect_changes]
  | cons p rest ih =>
    cases ha : aggregate_predictions p.predictions minFrames with
    | none =>
      rw [detect_changes, ha, ih]
      constructor
      · rintro ⟨p', hp', agg, hagg, hr⟩
        exact ⟨p', List.mem_cons_of_mem _ hp', agg, hagg, hr⟩
      · rintro ⟨p', hp', agg, hagg, hr⟩
        rcases List.mem_cons.1 hp' with rfl | hp'
        · rw [ha] at hagg; cases hagg
        · exact ⟨p', hp', agg, hagg, hr⟩
    | some agg =>
      rw [detect_changes, ha]
      constructor
      · intro hr
        rcases List.mem_cons.1 hr with rfl | hr
        · exact ⟨p, List.mem_cons_self _ _, agg, ha, rfl⟩
        · obtain ⟨p', hp', agg', hagg', hr'⟩ := ih.1 hr
          exact ⟨p', List.mem_cons_of_mem _ hp', agg', hagg', hr'⟩
      · rintro ⟨p', hp', agg', hagg', hr⟩
        rcases List.mem_cons.1 hp' with rfl | hp'
        · rw [ha] at hagg'
          injection hagg' with h'
          rw [hr, ← h']
          exact List.mem_cons_self _ _
        · exact List.mem_cons_of_mem _ (ih.2 ⟨p', hp', agg', hagg', hr⟩)

/-- With a positive evidence floor, a property gets a report iff it has at
least `minFrames` predictions, so the output length counts exactly those. -/
lemma detect_changes_length (props : List PropertyPrediction)
    (confidence_threshold : ℚ) (minFrames : ℕ) (h1 : 1 ≤ minFrames) :
    (detect_changes props confidence_threshold minFrames).length
      = (props.filter (fun p => decide (minFrames ≤ p.predictions.length))).length := by
  induction props with
  | nil => rfl
  | cons p rest ih =>
    by_cases hp : minFrames ≤ p.predictions.length
    · obtain ⟨c0, cl, _, hagg⟩ := aggregate_eq_spec p.predictions minFrames h1 hp
      rw [detect_changes, hagg, List.filter_cons, if_pos (by simpa using hp)]
      simp [ih]
    · rw [detect_changes, aggregate_none_of_lt _ _ (not_le.1 hp),
        List.filter_cons, if_neg (by simpa using hp)]
      exact ih

/-! ### Lemmas about the interpolation scan -/

/-- Under sortedness, once the clamps fail the scan finds the first bracketing
pair and returns the interpolation there. -/
lemma scanPairs_bracket (t : ℚ) :
    ∀ (l : List TrackPoint) (a : TrackPoint),
      TimeSorted (a :: l) → a.time < t → t < (l.getLastD a).time →
      ∃ i, i + 1 < (a :: l).length ∧
        ((a :: l).getD i dTP).time ≤ t ∧ t ≤ ((a :: l).getD (i + 1) dTP).time ∧
        (∀ j, j < i →
          ¬(((a :: l).getD j dTP).time ≤ t ∧
            t ≤ ((a :: l).getD (j + 1) dTP).time)) ∧
        scanPairs (a :: l) t
          = some (lerpPair ((a :: l).getD i dTP) ((a :: l).getD (i + 1) dTP) t) := by
  intro l
  induction l with
  | nil =>
    intro a _ hlt hgt
    exact absurd (hlt.trans hgt) (lt_irrefl _)
  | cons b l ih =>
    intro a hs hlt hgt
    have hs' : TimeSorted (b :: l) := (List.chain'_cons.1 hs).2
    by_cases hb : t ≤ b.time
    · refine ⟨0, by simp, by simpa using hlt.le, by simpa using hb,
        fun j hj => absurd hj (by omega), ?_⟩
      rw [scanPairs, if_pos ⟨hlt.le, hb⟩]
      simp
    · have hbt : b.time < t := not_le.1 hb
      have hgt' : t < (l.getLastD b).time := by
        rwa [List.getLastD_cons] at hgt
      obtain ⟨i, hilen, h1, h2, hmin, hscan⟩ := ih b hs' hbt hgt'
      refine ⟨i + 1, ?_, ?_, ?_, ?_, ?_⟩
      · simpa using Nat.succ_lt_succ hilen
      · simpa using h1
      · simpa using h2
      · intro j hj
        match j with
        | 0 =>
          rintro ⟨_, hvi⟩
          rw [List.getD_cons_succ, List.getD_cons_zero] at hvi
          exact absurd hvi (not_le.2 hbt)
        | j' + 1 =>
          have hj' : j' < i := by omega
          intro hbr
          refine hmin j' hj' ?_
          simpa using hbr
      · rw [scanPairs, if_neg (fun h => hb h.2), hscan]
        simp

/-! ### Lemmas about the matcher -/

lemma alookup_dinsert_self : ∀ (d : List (ℤ × Option ℤ)) (k : ℤ) (v : Option ℤ),
    alookup (dinsert d k v) k = some v := by
  intro d
  induction d with
  | nil => intro k v; simp [dinsert, alookup]
  | cons e rest ih =>
    intro k v
    obtain ⟨k', v'⟩ := e
    rw [dinsert]
    by_cases h : k' = k
    · rw [if_pos h, alookup, if_pos rfl]
    · rw [if_neg h, alookup, if_neg h]
      exact ih k v

lemma alookup_dinsert_ne : ∀ (d : List (ℤ × Option ℤ)) (k q : ℤ) (v : Option ℤ),
    k ≠ q → alookup (dinsert d k v) q = alookup d q := by
  intro d
  induction d with
  | nil => intro k q v h; simp [dinsert, alookup, h]
  | cons e rest ih =>
    intro k q v h
    obtain ⟨k', v'⟩ := e
    rw [dinsert]
    by_cases h' : k' = k
    · rw [if_pos h', alookup, if_neg h, alookup, if_neg (h' ▸ h)]
    · rw [if_neg h', alookup, alookup]
      by_cases h'' : k' = q
      · rw [if_pos h'', if_pos h'']
      · rw [if_neg h'', if_neg h'']
        exact ih k q v h

lemma alookup_frameFold_not_mem {Poly : Type} (ops : GeoPrims Poly)
    (polys : List Poly) (ids : List ℤ) (buf : ℚ) :
    ∀ (frames : List Frame) (acc : List (ℤ × Option ℤ)) (k : ℤ),
      k ∉ frames.map (fun f => f.id) →
      alookup (frameFold ops polys ids buf acc frames) k = alookup acc k := by
  intro frames
  induction frames with
  | nil => intro acc k _; rfl
  | cons g rest ih =>
    intro acc k hk
    simp only [List.map_cons, List.mem_cons] at hk
    push_neg at hk
    rw [frameFold, ih _ k hk.2, alookup_dinsert_ne _ _ _ _ (fun h => hk.1 h.symm)]

lemma alookup_frameFold_mem {Poly : Type} (ops : GeoPrims Poly)
    (polys : List Poly) (ids : List ℤ) (buf : ℚ) :
    ∀ (frames : List Frame) (acc : List (ℤ × Option ℤ)) (f : Frame),
      (frames.map (fun f => f.id)).Nodup → f ∈ frames →
      alookup (frameFold ops polys ids buf acc frames) f.id
        = some (processFrame ops polys ids buf f.gps_lat f.gps_lon) := by
  intro frames
  induction frames with
  | nil => intro acc f _ hf; cases hf
  | cons g rest ih =>
    intro acc f hnd hf
    rw [List.map_cons] at hnd
    have hnd' := List.nodup_cons.1 hnd
    rcases List.mem_cons.1 hf with rfl | hf
    · rw [frameFold, alookup_frameFold_not_mem ops polys ids buf rest _ _ hnd'.1,
        alookup_dinsert_self]
    · exact ih _ f hnd'.2 hf

/-- Per-frame view of the batch matcher: for a frame of the batch (with
distinct frame ids and a non-empty registry) the stored result is exactly the
per-frame loop body. -/
lemma match_frames_lookup {Poly : Type} (ops : GeoPrims Poly)
    (frames : List Frame) (props : List (GeoProperty Poly)) (buf : ℚ)
    (f : Frame) (hnd : (frames.map (fun f => f.id)).Nodup) (hf : f ∈ frames)
    (hprops : props ≠ []) :
    pyGet (match_frames_to_properties ops frames props buf) f.id
      = processFrame ops (build_index props).1 (build_index props).2 buf
          f.gps_lat f.gps_lon := by
  have hfr : frames ≠ [] := List.ne_nil_of_mem hf
  have hcond : (props.isEmpty || frames.isEmpty) = false := by
    cases props with
    | nil => exact absurd rfl hprops
    | cons p ps =>
      cases frames with
      | nil => exact absurd rfl hfr
      | cons q qs => rfl
  rw [match_frames_to_properties, hcond]
  simp only [Bool.false_eq_true, if_false]
  rw [pyGet, alookup_frameFold_mem ops _ _ buf frames [] f hnd hf]

lemma pass1_none {Poly : Type} (ops : GeoPrims Poly) (polys : List Poly)
    (ids : List ℤ) (pt : Pt)
    (hnc : ∀ (j : ℕ) (pj : Poly), polys[j]? = some pj →
      ops.contains pj pt = false) :
    ∀ cands, pass1 ops polys ids pt cands = none := by
  intro cands
  induction cands with
  | nil => rfl
  | cons i rest ih =>
    cases hgi : polys[i]? with
    | none =>
      rw [pass1, hgi]
      exact ih
    | some poly =>
      rw [pass1, hgi]
      show (if ops.contains poly pt = true then some (ids.getD i 0)
        else pass1 ops polys ids pt rest) = none
      rw [hnc i poly hgi]
      simpa using ih

lemma pass1_finds {Poly : Type} (ops : GeoPrims Poly) (polys : List Poly)
    (ids : List ℤ) (pt : Pt) (k : ℕ) (pk : Poly)
    (hk : polys[k]? = some pk) (hcont : ops.contains pk pt = true)
    (huniq : ∀ (j : ℕ) (pj : Poly), polys[j]? = some pj →
      ops.contains pj pt = true → j = k) :
    ∀ cands, k ∈ cands →
      pass1 ops polys ids pt cands = some (ids.getD k 0) := by
  intro cands
  induction cands with
  | nil => intro h; cases h
  | cons i rest ih =>
    intro hmem
    cases hgi : polys[i]? with
    | none =>
      rw [pass1, hgi]
      rcases List.mem_cons.1 hmem with rfl | hmem
      · rw [hk] at hgi; cases hgi
      · exact ih hmem
    | some pi =>
      rw [pass1, hgi]
      show (if ops.contains pi pt = true then some (ids.getD i 0)
        else pass1 ops polys ids pt rest) = some (ids.getD k 0)
      by_cases hci : ops.contains pi pt = true
      · rw [if_pos hci, huniq i pi hgi hci]
      · rw [if_neg hci]
        rcases List.mem_cons.1 hmem with rfl | hmem
        · rw [hk] at hgi
          injection hgi with h'
          rw [h'] at hcont
          exact absurd hcont hci
        · exact ih hmem

/-- One step of the pass-2 loop equals `stepBest`. -/
lemma pass2Aux_cons {Poly : Type} (ops : GeoPrims Poly) (polys : List Poly)
    (ids : List ℤ) (pt ptU : Pt) (buf : ℚ) (i : ℕ) (l : List ℕ)
    (best : Option (ℤ × ℚ)) :
    pass2Aux ops polys ids pt ptU buf (i :: l) best
      = pass2Aux ops polys ids pt ptU buf l
          (stepBest ops polys ids pt ptU buf i best) := by
  cases hgi : polys[i]? with
  | none =>
    simp only [pass2Aux, hgi, stepBest, accepted]
    cases best with
    | none => rfl
    | some b => obtain ⟨q, bd⟩ := b; rfl
  | some poly =>
    cases hfar : sqrtGtB (centroidD2 ops polys ptU i) (buf * 3) with
    | true =>
      simp [pass2Aux, hgi, hfar, stepBest, accepted]
      cases best with
      | none => rfl
      | some b => obtain ⟨q, bd⟩ := b; rfl
    | false =>
      cases hlt : sqrtLtB (edgeD2 ops polys pt ptU i) buf with
      | false =>
        simp [pass2Aux, hgi, hfar, hlt, stepBest, accepted]
        cases best with
        | none => rfl
        | some b => obtain ⟨q, bd⟩ := b; rfl
      | true =>
        cases best with
        | none =>
          simp [pass2Aux, hgi, hfar, hlt, stepBest, accepted]
        | some b =>
          obtain ⟨q, bd⟩ := b
          by_cases he : edgeD2 ops polys pt ptU i < bd
          · simp [pass2Aux, hgi, hfar, hlt, stepBest, accepted, he]
          · simp [pass2Aux, hgi, hfar, hlt, stepBest, accepted, he]

/-- The pass-2 loop yields `None` exactly when the incoming best is empty and
no candidate passes the filters and the buffer threshold. -/
lemma pass2Aux_none_iff {Poly : Type} (ops : GeoPrims Poly) (polys : List Poly)
    (ids : List ℤ) (pt ptU : Pt) (buf : ℚ) :
    ∀ (l : List ℕ) (best : Option (ℤ × ℚ)),
      pass2Aux ops polys ids pt ptU buf l best = none
        ↔ best = none ∧ ∀ i ∈ l, accepted ops polys pt ptU buf i = false := by
  intro l
  induction l with
  | nil => intro best; simp [pass2Aux]
  | cons i rest ih =>
    intro best
    rw [pass2Aux_cons]
    by_cases hacc : accepted ops polys pt ptU buf i = true
    · have hsome : ∃ b, stepBest ops polys ids pt ptU buf i best = some b := by
        cases best with
        | none =>
          rw [stepBest, if_pos hacc]
          exact ⟨_, rfl⟩
        | some b =>
          obtain ⟨q, bd⟩ := b
          rw [stepBest, if_pos hacc]
          by_cases he : edgeD2 ops polys pt ptU i < bd
          · rw [if_pos he]; exact ⟨_, rfl⟩
          · rw [if_neg he]; exact ⟨_, rfl⟩
      obtain ⟨b, hb⟩ := hsome
      rw [hb, ih]
      constructor
      · rintro ⟨h, _⟩; cases h
      · rintro ⟨_, hall⟩
        have := hall i (List.mem_cons_self _ _)
        rw [hacc] at this
        cases this
    · have hbf : accepted ops polys pt ptU buf i = false :=
        Bool.eq_false_iff.2 hacc
      have hsb : stepBest ops polys ids pt ptU buf i best = best := by
        cases best with
        | none => rw [stepBest, if_neg hacc]
        | some b =>
          obtain ⟨q, bd⟩ := b
          rw [stepBest, if_neg hacc]
      rw [hsb, ih]
      constructor
      · rintro ⟨h1, h2⟩
        refine ⟨h1, fun j hj => ?_⟩
        rcases List.mem_cons.1 hj with rfl | hj
        · exact hbf
        · exact h2 j hj
      · rintro ⟨h1, h2⟩
        exact ⟨h1, fun j hj => h2 j (List.mem_cons_of_mem _ hj)⟩

/-- When the pass-2 loop returns a best pair, it comes from the incoming best
or an accepted candidate, and its distance is minimal among all accepted
candidates and at most the incoming best distance. -/
lemma pass2Aux_some_spec {Poly : Type} (ops : GeoPrims Poly) (polys : List Poly)
    (ids : List ℤ) (pt ptU : Pt) (buf : ℚ) :
    ∀ (l : List ℕ) (best : Option (ℤ × ℚ)) (pid : ℤ) (d : ℚ),
      pass2Aux ops polys ids pt ptU buf l best = some (pid, d) →
        (best = some (pid, d) ∨
          ∃ i, i ∈ l ∧ accepted ops polys pt ptU buf i = true ∧
            pid = ids.getD i 0 ∧ d = edgeD2 ops polys pt ptU i) ∧
        (∀ i ∈ l, accepted ops polys pt ptU buf i = true →
          d ≤ edgeD2 ops polys pt ptU i) ∧
        (∀ q e, best = some (q, e) → d ≤ e) := by
  intro l
  induction l with
  | nil =>
    intro best pid d h
    have hb : best = some (pid, d) := h
    refine ⟨Or.inl hb, fun i hi _ => absurd hi (List.not_mem_nil _), ?_⟩
    intro q e he
    rw [hb] at he
    injection he with he'
    rw [Prod.ext_iff] at he'
    exact le_of_eq he'.2
  | cons i rest ih =>
    intro best pid d h
    rw [pass2Aux_cons] at h
    obtain ⟨ho, hmin, hbest⟩ := ih _ pid d h
    by_cases hacc : accepted ops polys pt ptU buf i = true
    · cases best with
      | none =>
        have hsb : stepBest ops polys ids pt ptU buf i none
            = some (ids.getD i 0, edgeD2 ops polys pt ptU i) := by
          rw [stepBest, if_pos hacc]
        have hdle : d ≤ edgeD2 ops polys pt ptU i := hbest _ _ hsb
        refine ⟨?_, ?_, ?_⟩
        · rcases ho with hl | ⟨j, hj, hja, hjp, hjd⟩
          · rw [hsb] at hl
            injection hl with hl'
            rw [Prod.ext_iff] at hl'
            exact Or.inr ⟨i, List.mem_cons_self _ _, hacc, hl'.1.symm, hl'.2.symm⟩
          · exact Or.inr ⟨j, List.mem_cons_of_mem _ hj, hja, hjp, hjd⟩
        · intro j hj hja
          rcases List.mem_cons.1 hj with rfl | hj
          · exact hdle
          · exact hmin j hj hja
        · intro q e he
          cases he
      | some b =>
        obtain ⟨q0, e0⟩ := b
        by_cases he : edgeD2 ops polys pt ptU i < e0
        · have hsb : stepBest ops polys ids pt ptU buf i (some (q0, e0))
              = some (ids.getD i 0, edgeD2 ops polys pt ptU i) := by
            rw [stepBest, if_pos hacc, if_pos he]
          have hdle : d ≤ edgeD2 ops polys pt ptU i := hbest _ _ hsb
          refine ⟨?_, ?_, ?_⟩
          · rcases ho with hl | ⟨j, hj, hja, hjp, hjd⟩
            · rw [hsb] at hl
              injection hl with hl'
              rw [Prod.ext_iff] at hl'
              exact Or.inr ⟨i, List.mem_cons_self _ _, hacc, hl'.1.symm, hl'.2.symm⟩
            · exact Or.inr ⟨j, List.mem_cons_of_mem _ hj, hja, hjp, hjd⟩
          · intro j hj hja
            rcases List.mem_cons.1 hj with rfl | hj
            · exact hdle
            · exact hmin j hj hja
          · intro q e hqe
            injection hqe with hqe'
            rw [Prod.ext_iff] at hqe'
            have h2 : e0 = e := hqe'.2
            rw [← h2]
            exact le_trans hdle he.le
        · have hsb : stepBest ops polys ids pt ptU buf i (some (q0, e0))
              = some (q0, e0) := by
            rw [stepBest, if_pos hacc, if_neg he]
          have hde0 : d ≤ e0 := hbest _ _ hsb
          refine ⟨?_, ?_, ?_⟩
          · rcases ho with hl | ⟨j, hj, hja, hjp, hjd⟩
            · rw [hsb] at hl
              exact Or.inl hl
            · exact Or.inr ⟨j, List.mem_cons_of_mem _ hj, hja, hjp, hjd⟩
          · intro j hj hja
            rcases List.mem_cons.1 hj with rfl | hj
            · exact le_trans hde0 (not_lt.1 he)
            · exact hmin j hj hja
          · intro q e hqe
            injection hqe with hqe'
            rw [Prod.ext_iff] at hqe'
            have h2 : e0 = e := hqe'.2
            rw [← h2]
            exact hde0
    · have hsb : stepBest ops polys ids pt ptU buf i best = best := by
        cases best with
        | none => rw [stepBest, if_neg hacc]
        | some b =>
          obtain ⟨q0, e0⟩ := b
          rw [stepBest, if_neg hacc]
      rw [hsb] at ho hbest
      refine ⟨?_, ?_, hbest⟩
      · rcases ho with hl | ⟨j, hj, hja, hjp, hjd⟩
        · exact Or.inl hl
        · exact Or.inr ⟨j, List.mem_cons_of_mem _ hj, hja, hjp, hjd⟩
      · intro j hj hja
        rcases List.mem_cons.1 hj with rfl | hj
        · exact absurd hja (by rw [Bool.eq_false_iff.2 hacc]; simp)
        · exact hmin j hj hja

/-- When no indexed polygon contains the point, the per-frame body is the
pass-2 fallback. -/
lemma processFrame_pass2 {Poly : Type} (ops : GeoPrims Poly) (polys : List Poly)
    (ids : List ℤ) (buf : ℚ) (lat lon : ℚ)
    (hnc : ∀ (j : ℕ) (pj : Poly), polys[j]? = some pj →
      ops.contains pj (lon, lat) = false) :
    processFrame ops polys ids buf (some lat) (some lon)
      = (pass2Aux ops polys ids (lon, lat) (ops.toUTM (lon, lat)) buf
          (ops.queryBuffer polys (lon, lat) (buf / 111000)) none).map
            (fun b => b.1) := by
  simp only [processFrame, pass1_none ops polys ids (lon, lat) hnc]

lemma mkReport_status (p : PropertyPrediction) (agg : Agg)
    (confidence_threshold : ℚ) :
    (mkReport p agg confidence_threshold).status = "flagged" ∨
    (mkReport p agg confidence_threshold).status = "confirmed" := by
  simp only [mkReport]
  cases hex : p.existing_typology with
  | none => right; rfl
  | some e =>
    by_cases hm : (decide (agg.predicted_typology ≠ e) &&
        decide (confidence_threshold ≤ agg.aggregated_confidence)) = true
    · left; rw [if_pos hm]
    · right; rw [if_neg hm]

lemma mkReport_status_flagged_iff (p : PropertyPrediction) (agg : Agg)
    (confidence_threshold : ℚ) :
    (mkReport p agg confidence_threshold).status = "flagged"
      ↔ ∃ e, p.existing_typology = some e ∧ agg.predicted_typology ≠ e ∧
          confidence_threshold ≤ agg.aggregated_confidence := by
  simp only [mkReport]
  cases hex : p.existing_typology with
  | none =>
    constructor
    · intro h
      exact absurd (show "confirmed" = "flagged" from h) (by decide)
    · rintro ⟨e, he, _⟩
      cases he
  | some e =>
    simp only [Bool.and_eq_true, decide_eq_true_eq]
    by_cases hm : agg.predicted_typology ≠ e ∧
        confidence_threshold ≤ agg.aggregated_confidence
    · rw [if_pos hm]
      constructor
      · intro _
        exact ⟨e, rfl, hm.1, hm.2⟩
      · intro _
        rfl
    · rw [if_neg hm]
      constructor
      · intro h
        exact absurd h (by decide)
      · rintro ⟨e', he', h1, h2⟩
        injection he' with he''
        exact absurd ⟨by rw [he'']; exact h1, h2⟩ hm

/-! ## Claim theorems

Core marks the rational arithmetic operations irreducible, which blocks
`decide` from evaluating the embedded pipeline on concrete inputs; restore
semireducibility so concrete runs reduce. -/

set_option allowUnsafeReducibility true in
attribute [semireducible] Rat.inv Rat.mul Rat.add Rat.sub

/-! ### The claims -/

/-- C1 counterexample: a parcel with zero samples (fewer than
`minimum_evidence_count = 1`, so aggregation returns `None`) does NOT appear in
the output of `detect_changes` with decision `Insufficient` — it does not
appear at all: the output is empty and in particular contains no report with
status `Insufficient`. -/
theorem C1_counterexample :
    detect_changes
        [{ property_id := 1, existing_typology := some "commercial",
           predictions := [] }]
        CONFIDENCE_THRESHOLD MIN_FRAMES_FOR_PREDICTION = [] ∧
    ¬ ∃ r ∈ detect_changes
        [{ property_id := 1, existing_typology := some "commercial",
           predictions := [] }]
        CONFIDENCE_THRESHOLD MIN_FRAMES_FOR_PREDICTION,
        r.status = "Insufficient" := by
  decide

/-- C1 (amended): for every parcel whose sample list has fewer than
`minimum_evidence_count` samples (so aggregation returns `None`), the decide
step of `detect_changes` omits that parcel from the output entirely — no
`Insufficient` verdict exists.  Every report in the output has
`samples_considered ≥ minimum_evidence_count` and status `flagged` or
`confirmed` (never `Insufficient`), and the number of reports equals the
number of parcels with at least `minimum_evidence_count` samples. -/
theorem C1_insufficient_parcels_omitted (props : List PropertyPrediction)
    (confidence_threshold : ℚ) (minFrames : ℕ) (h1 : 1 ≤ minFrames) :
    (∀ r ∈ detect_changes props confidence_threshold minFrames,
      minFrames ≤ r.num_frames_analyzed ∧ r.status ≠ "Insufficient") ∧
    (detect_changes props confidence_threshold minFrames).length
      = (props.filter (fun p => decide (minFrames ≤ p.predictions.length))).length := by
  constructor
  · intro r hr
    obtain ⟨p, hp, agg, hagg, rfl⟩ :=
      (mem_detect_changes props confidence_threshold minFrames r).1 hr
    have hle := aggregate_some_le _ _ _ hagg
    obtain ⟨c0, cl, hd, hagg'⟩ := aggregate_eq_spec p.predictions minFrames h1 hle
    rw [hagg] at hagg'
    injection hagg' with hEq
    constructor
    · show minFrames ≤ agg.num_frames_analyzed
      rw [hEq]
      exact hle
    · intro hcontra
      rcases mkReport_status p agg confidence_threshold with h | h
      · rw [hcontra] at h
        exact absurd h (by decide)
      · rw [hcontra] at h
        exact absurd h (by decide)
  · exact detect_changes_length props confidence_threshold minFrames h1

/-- C1 witness: with the default floor 1, a mixed batch — one parcel with one
sample and one with none — yields exactly one report with at least one sample
considered and a non-Insufficient status. -/
theorem C1_witness :
    (∀ r ∈ detect_changes
        [{ property_id := 1, existing_typology := none,
           predictions := [{ predicted_class := "a", confidence := 1/2 }] },
         { property_id := 2, existing_typology := none, predictions := [] }]
        CONFIDENCE_THRESHOLD 1,
      1 ≤ r.num_frames_analyzed ∧ r.status ≠ "Insufficient") ∧
    (detect_changes
        [{ property_id := 1, existing_typology := none,
           predictions := [{ predicted_class := "a", confidence := 1/2 }] },
         { property_id := 2, existing_typology := none, predictions := [] }]
        CONFIDENCE_THRESHOLD 1).length
      = (List.filter (fun p : PropertyPrediction => decide (1 ≤ p.predictions.length))
          [{ property_id := 1, existing_typology := none,
             predictions := [{ predicted_class := "a", confidence := 1/2 }] },
           { property_id := 2, existing_typology := none, predictions := [] }]).length :=
  C1_insufficient_parcels_omitted _ CONFIDENCE_THRESHOLD 1 (by decide)

/-- C5: for every parcel with a successful aggregate result and every
threshold, the report appended by `detect_changes` is in the output, and its
status is `flagged` iff the parcel has a recorded classification, the
aggregated winning label differs from it, and the aggregated confidence is at
least the threshold; in every other case the status is `confirmed`. -/
theorem C5_flag_decision (props : List PropertyPrediction)
    (confidence_threshold : ℚ) (minFrames : ℕ) (p : PropertyPrediction)
    (agg : Agg) (hp : p ∈ props)
    (hagg : aggregate_predictions p.predictions minFrames = some agg) :
    mkReport p agg confidence_threshold
        ∈ detect_changes props confidence_threshold minFrames ∧
    ((mkReport p agg confidence_threshold).status = "flagged"
      ↔ ∃ e, p.existing_typology = some e ∧ agg.predicted_typology ≠ e ∧
          confidence_threshold ≤ agg.aggregated_confidence) ∧
    ((mkReport p agg confidence_threshold).status = "flagged" ∨
     (mkReport p agg confidence_threshold).status = "confirmed") := by
  refine ⟨?_, mkReport_status_flagged_iff p agg confidence_threshold,
    mkReport_status p agg confidence_threshold⟩
  exact (mem_detect_changes props confidence_threshold minFrames
    (mkReport p agg confidence_threshold)).2 ⟨p, hp, agg, hagg, rfl⟩

/-- C5 witness: the spec's flag-decision example.  A parcel recorded
`commercial` with winner `non_commercial` at confidence 0.75 and threshold 0.5
is flagged; the same disagreement at confidence 0.3 is confirmed. -/
theorem C5_witness :
    (mkReport
        { property_id := 1, existing_typology := some "commercial",
          predictions := [{ predicted_class := "non_commercial", confidence := 3/4 },
                          { predicted_class := "commercial", confidence := 1/4 }] }
        { predicted_typology := "non_commercial", aggregated_confidence := 3/4,
          num_frames_analyzed := 2, num_frames_agreeing := 1 }
        (1/2)
        ∈ detect_changes
            [{ property_id := 1, existing_typology := some "commercial",
               predictions := [{ predicted_class := "non_commercial", confidence := 3/4 },
                               { predicted_class := "commercial", confidence := 1/4 }] }]
            (1/2) 1) ∧
    (mkReport
        { property_id := 1, existing_typology := some "commercial",
          predictions := [{ predicted_class := "non_commercial", confidence := 3/4 },
                          { predicted_class := "commercial", confidence := 1/4 }] }
        { predicted_typology := "non_commercial", aggregated_confidence := 3/4,
          num_frames_analyzed := 2, num_frames_agreeing := 1 }
        (1/2)).status = "flagged" ∧
    (detect_changes
        [{ property_id := 2, existing_typology := some "commercial",
           predictions := [{ predicted_class := "non_commercial", confidence := 3/10 },
                           { predicted_class := "x", confidence := 28/100 },
                           { predicted_class := "y", confidence := 22/100 },
                           { predicted_class := "z", confidence := 1/5 }] }]
        (1/2) 1).map (fun r => r.status) = ["confirmed"] :=
  ⟨(C5_flag_decision _ (1/2) 1 _ _ (List.mem_cons_self _ _) (by decide)).1,
   by decide, by decide⟩

/-- C4 counterexample: on the spec's own example the returned aggregated
confidence is the normalized mass ROUNDED to four decimals, `0.6522 =
3261/5000`, which is not exactly `1.5/2.3 = 15/23`. -/
theorem C4_counterexample :
    aggregate_predictions
        [{ predicted_class := "commercial", confidence := 9/10 },
         { predicted_class := "commercial", confidence := 3/5 },
         { predicted_class := "non_commercial", confidence := 4/5 }]
        MIN_FRAMES_FOR_PREDICTION
      = some { predicted_typology := "commercial",
               aggregated_confidence := 3261/5000,
               num_frames_analyzed := 3, num_frames_agreeing := 2 } ∧
    (3261/5000 : ℚ) ≠ (3/2) / (23/10) := by
  decide

/-- C4 (amended): for every sample list with at least
`minimum_evidence_count ≥ 1` elements, `aggregate_predictions` succeeds and
returns: the winning label of greatest summed confidence (ties broken by
first-encountered label), the winner's summed confidence divided by the total
confidence mass rounded to four decimal places (0 when the mass is 0),
`agreeing` the unweighted count of samples voting for the winner, and
`considered` the total sample count. -/
theorem C4_aggregate_spec (preds : List Prediction) (minFrames : ℕ)
    (h1 : 1 ≤ minFrames) (h2 : minFrames ≤ preds.length) :
    ∃ agg, aggregate_predictions preds minFrames = some agg ∧
      agg.num_frames_analyzed = preds.length ∧
      agg.num_frames_agreeing
        = preds.countP (fun p => decide (p.predicted_class = agg.predicted_typology)) ∧
      agg.predicted_typology ∈ preds.map (fun p => p.predicted_class) ∧
      (∀ c ∈ preds.map (fun p => p.predicted_class),
        classTotal (fun p => p.confidence) preds c
          ≤ classTotal (fun p => p.confidence) preds agg.predicted_typology) ∧
      (∃ c0 cl, distinctFirst (preds.map (fun p => p.predicted_class)) = c0 :: cl ∧
        agg.predicted_typology
          = firstMaxBy (classTotal (fun p => p.confidence) preds) c0 cl) ∧
      agg.aggregated_confidence
        = round4 (if 0 < (preds.map (fun p => p.confidence)).sum then
            classTotal (fun p => p.confidence) preds agg.predicted_typology /
              (preds.map (fun p => p.confidence)).sum
          else 0) := by
  obtain ⟨c0, cl, hd, hagg⟩ := aggregate_eq_spec preds minFrames h1 h2
  refine ⟨aggSpec preds c0 cl, hagg, rfl,
    classTotal_one_eq_countP preds _, ?_, ?_, ⟨c0, cl, hd, rfl⟩, rfl⟩
  · have hm := firstMaxBy_mem (classTotal (fun p => p.confidence) preds) cl c0
    rw [← hd] at hm
    exact (mem_distinctFirst _ _).1 hm
  · intro c hc
    have hc' : c ∈ c0 :: cl := by
      rw [← hd, mem_distinctFirst]
      exact hc
    exact firstMaxBy_ge (fun c => classTotal (fun p => p.confidence) preds c) cl c0 c hc'

/-- C4 witness: the amended characterisation instantiated on the spec's
example, plus the explicit computed record. -/
theorem C4_witness :
    (∃ agg, aggregate_predictions
        [{ predicted_class := "commercial", confidence := 9/10 },
         { predicted_class := "commercial", confidence := 3/5 },
         { predicted_class := "non_commercial", confidence := 4/5 }] 1
        = some agg ∧
      agg.num_frames_analyzed
        = ([{ predicted_class := "commercial", confidence := (9:ℚ)/10 },
            { predicted_class := "commercial", confidence := 3/5 },
            { predicted_class := "non_commercial", confidence := 4/5 }] :
              List Prediction).length ∧
      agg.num_frames_agreeing
        = ([{ predicted_class := "commercial", confidence := (9:ℚ)/10 },
            { predicted_class := "commercial", confidence := 3/5 },
            { predicted_class := "non_commercial", confidence := 4/5 }] :
              List Prediction).countP
            (fun p => decide (p.predicted_class = agg.predicted_typology)) ∧
      agg.predicted_typology
        ∈ ([{ predicted_class := "commercial", confidence := (9:ℚ)/10 },
            { predicted_class := "commercial", confidence := 3/5 },
            { predicted_class := "non_commercial", confidence := 4/5 }] :
              List Prediction).map (fun p => p.predicted_class) ∧
      (∀ c ∈ ([{ predicted_class := "commercial", confidence := (9:ℚ)/10 },
            { predicted_class := "commercial", confidence := 3/5 },
            { predicted_class := "non_commercial", confidence := 4/5 }] :
              List Prediction).map (fun p => p.predicted_class),
        classTotal (fun p => p.confidence)
            [{ predicted_class := "commercial", confidence := 9/10 },
             { predicted_class := "commercial", confidence := 3/5 },
             { predicted_class := "non_commercial", confidence := 4/5 }] c
          ≤ classTotal (fun p => p.confidence)
              [{ predicted_class := "commercial", confidence := 9/10 },
               { predicted_class := "commercial", confidence := 3/5 },
               { predicted_class := "non_commercial", confidence := 4/5 }]
              agg.predicted_typology) ∧
      (∃ c0 cl, distinctFirst
          (([{ predicted_class := "commercial", confidence := (9:ℚ)/10 },
             { predicted_class := "commercial", confidence := 3/5 },
             { predicted_class := "non_commercial", confidence := 4/5 }] :
               List Prediction).map (fun p => p.predicted_class)) = c0 :: cl ∧
        agg.predicted_typology
          = firstMaxBy (classTotal (fun p => p.confidence)
              [{ predicted_class := "commercial", confidence := 9/10 },
               { predicted_class := "commercial", confidence := 3/5 },
               { predicted_class := "non_commercial", confidence := 4/5 }]) c0 cl) ∧
      agg.aggregated_confidence
        = round4 (if 0 < (([{ predicted_class := "commercial", confidence := (9:ℚ)/10 },
              { predicted_class := "commercial", confidence := 3/5 },
              { predicted_class := "non_commercial", confidence := 4/5 }] :
                List Prediction).map (fun p => p.confidence)).sum then
            classTotal (fun p => p.confidence)
                [{ predicted_class := "commercial", confidence := 9/10 },
                 { predicted_class := "commercial", confidence := 3/5 },
                 { predicted_class := "non_commercial", confidence := 4/5 }]
                agg.predicted_typology /
              (([{ predicted_class := "commercial", confidence := (9:ℚ)/10 },
                 { predicted_class := "commercial", confidence := 3/5 },
                 { predicted_class := "non_commercial", confidence := 4/5 }] :
                   List Prediction).map (fun p => p.confidence)).sum
          else 0)) ∧
    (aggregate_predictions
        [{ predicted_class := "commercial", confidence := 9/10 },
         { predicted_class := "commercial", confidence := 3/5 },
         { predicted_class := "non_commercial", confidence := 4/5 }] 1).map
      (fun a => a.num_frames_agreeing) = some 2 :=
  ⟨C4_aggregate_spec _ 1 (by decide) (by decide), by decide⟩

/-- C10: a non-empty sample list in which every confidence is 0 still
aggregates successfully — the normalizing division is guarded — and the
aggregated confidence is 0. -/
theorem C10_zero_confidence_safe (preds : List Prediction) (minFrames : ℕ)
    (h1 : 1 ≤ minFrames) (h2 : minFrames ≤ preds.length)
    (hz : ∀ p ∈ preds, p.confidence = 0) :
    ∃ agg, aggregate_predictions preds minFrames = some agg ∧
      agg.aggregated_confidence = 0 := by
  obtain ⟨c0, cl, hd, hagg⟩ := aggregate_eq_spec preds minFrames h1 h2
  refine ⟨aggSpec preds c0 cl, hagg, ?_⟩
  have hsum : (preds.map (fun p => p.confidence)).sum = 0 := by
    apply List.sum_eq_zero
    intro x hx
    obtain ⟨p, hp, rfl⟩ := List.mem_map.1 hx
    exact hz p hp
  show round4 (if 0 < (preds.map (fun p => p.confidence)).sum then
      classTotal (fun p => p.confidence) preds
          (firstMaxBy (classTotal (fun p => p.confidence) preds) c0 cl) /
        (preds.map (fun p => p.confidence)).sum
    else 0) = 0
  rw [hsum, if_neg (lt_irrefl 0)]
  decide

/-- C10 witness: two zero-confidence samples aggregate to confidence 0. -/
theorem C10_witness :
    ∃ agg, aggregate_predictions
        [{ predicted_class := "a", confidence := 0 },
         { predicted_class := "b", confidence := 0 }] 1 = some agg ∧
      agg.aggregated_confidence = 0 :=
  C10_zero_confidence_safe _ 1 (by decide) (by decide) (by decide)

/-- C6 counterexample: on a (non-decreasingly sorted) 2-point track whose two
timestamps coincide but whose positions differ, a query at that time is at or
after the last point's time, yet `interpolate_gps` returns the FIRST point's
position, not the last's — the lower clamp takes precedence. -/
theorem C6_counterexample :
    TimeSorted [TrackPoint.mk 0 1 1, TrackPoint.mk 0 2 2] ∧
    (TrackPoint.mk 0 2 2).time ≤ (0 : ℚ) ∧
    interpolate_gps [TrackPoint.mk 0 1 1, TrackPoint.mk 0 2 2] 0 = some (1, 1) ∧
    some ((1 : ℚ), (1 : ℚ))
      ≠ some ((TrackPoint.mk 0 2 2).lat, (TrackPoint.mk 0 2 2).lon) := by
  decide

/-- C6 (amended): for every track with at least 2 points sorted
non-decreasingly, a query at or before the first point's time returns exactly
the first point's position; a query at or after the last point's time AND
strictly after the first point's time returns exactly the last point's
position (when both clamps apply — only possible when the first and last
timestamps coincide — the lower clamp wins). -/
theorem C6_clamp (points : List TrackPoint) (p0 p1 : TrackPoint)
    (rest : List TrackPoint) (target_time : ℚ)
    (hpts : points = p0 :: p1 :: rest) (hs : TimeSorted points) :
    (target_time ≤ p0.time →
      interpolate_gps points target_time = some (p0.lat, p0.lon)) ∧
    (p0.time < target_time → (points.getLastD dTP).time ≤ target_time →
      interpolate_gps points target_time
        = some ((points.getLastD dTP).lat, (points.getLastD dTP).lon)) := by
  subst hpts
  constructor
  · intro h
    rw [interpolate_gps, if_pos h]
  · intro h1 h2
    rw [interpolate_gps, if_neg (not_le.2 h1), if_pos h2]

/-- C6 witness: on the track `t=0 → (0,0)`, `t=10 → (10,10)`, a query at
`t=-5` clamps to `(0,0)` and a query at `t=17` clamps to `(10,10)`. -/
theorem C6_witness :
    interpolate_gps [TrackPoint.mk 0 0 0, TrackPoint.mk 10 10 10] (-5)
      = some (0, 0) ∧
    interpolate_gps [TrackPoint.mk 0 0 0, TrackPoint.mk 10 10 10] 17
      = some (10, 10) :=
  ⟨(C6_clamp [TrackPoint.mk 0 0 0, TrackPoint.mk 10 10 10]
      (TrackPoint.mk 0 0 0) (TrackPoint.mk 10 10 10) [] (-5) rfl
      (by decide)).1 (by decide),
   (C6_clamp [TrackPoint.mk 0 0 0, TrackPoint.mk 10 10 10]
      (TrackPoint.mk 0 0 0) (TrackPoint.mk 10 10 10) [] 17 rfl
      (by decide)).2 (by decide) (by decide)⟩

/-- C7: for every sorted track with at least 2 points and every query time
strictly between the first and last timestamps, `interpolate_gps` returns the
linear interpolation at the FIRST bracketing pair `(p_i, p_{i+1})` with
`p_i.time ≤ t ≤ p_{i+1}.time` (ratio 0, i.e. `p_i`'s position, when the two
bracketing timestamps coincide). -/
theorem C7_linear_interpolation (points : List TrackPoint) (target_time : ℚ)
    (hs : TimeSorted points) (hlen : 2 ≤ points.length)
    (hlo : (points.getD 0 dTP).time < target_time)
    (hhi : target_time < (points.getLastD dTP).time) :
    ∃ i, i + 1 < points.length ∧
      ((points.getD i dTP).time ≤ target_time ∧
        target_time ≤ (points.getD (i + 1) dTP).time) ∧
      (∀ j, j < i → ¬((points.getD j dTP).time ≤ target_time ∧
        target_time ≤ (points.getD (j + 1) dTP).time)) ∧
      interpolate_gps points target_time
        = some (lerpPair (points.getD i dTP) (points.getD (i + 1) dTP)
            target_time) := by
  match points, hlen with
  | p0 :: p1 :: rest, _ =>
    have hlo' : p0.time < target_time := by simpa using hlo
    have hhi' : target_time < ((p1 :: rest).getLastD p0).time := by
      rwa [List.getLastD_cons] at hhi
    obtain ⟨i, hilen, h1, h2, hmin, hscan⟩ :=
      scanPairs_bracket target_time (p1 :: rest) p0 hs hlo' hhi'
    refine ⟨i, hilen, ⟨h1, h2⟩, hmin, ?_⟩
    rw [interpolate_gps, if_neg (not_le.2 hlo'),
      if_neg (not_le.2 (by rwa [List.getLastD_cons]))]
    exact hscan

/-- C7 witness: the amended characterisation instantiated on the spec's
example — plus the concrete value: the track `t=0 → (0,0)`, `t=10 → (10,10)`
interpolated at `t=5` returns `(5,5)`. -/
theorem C7_witness :
    (∃ i, i + 1 < ([TrackPoint.mk 0 0 0, TrackPoint.mk 10 10 10] :
            List TrackPoint).length ∧
      ((([TrackPoint.mk 0 0 0, TrackPoint.mk 10 10 10] :
            List TrackPoint).getD i dTP).time ≤ 5 ∧
        (5 : ℚ) ≤ (([TrackPoint.mk 0 0 0, TrackPoint.mk 10 10 10] :
            List TrackPoint).getD (i + 1) dTP).time) ∧
      (∀ j, j < i → ¬((([TrackPoint.mk 0 0 0, TrackPoint.mk 10 10 10] :
            List TrackPoint).getD j dTP).time ≤ 5 ∧
        (5 : ℚ) ≤ (([TrackPoint.mk 0 0 0, TrackPoint.mk 10 10 10] :
            List TrackPoint).getD (j + 1) dTP).time)) ∧
      interpolate_gps [TrackPoint.mk 0 0 0, TrackPoint.mk 10 10 10] 5
        = some (lerpPair (([TrackPoint.mk 0 0 0, TrackPoint.mk 10 10 10] :
              List TrackPoint).getD i dTP)
            (([TrackPoint.mk 0 0 0, TrackPoint.mk 10 10 10] :
              List TrackPoint).getD (i + 1) dTP) 5)) ∧
    interpolate_gps [TrackPoint.mk 0 0 0, TrackPoint.mk 10 10 10] 5
      = some (5, 5) :=
  ⟨C7_linear_interpolation [TrackPoint.mk 0 0 0, TrackPoint.mk 10 10 10] 5
      (by decide) (by decide) (by decide) (by decide),
   by decide⟩

/-- C8: on a sorted track, `interpolate_gps` returns `None` exactly when the
track has fewer than 2 points; with at least 2 sorted points it returns a
position for every query time (the fall-through after the bracketing scan is
unreachable under sortedness). -/
theorem C8_none_iff_short (points : List TrackPoint) (target_time : ℚ)
    (hs : TimeSorted points) :
    interpolate_gps points target_time = none ↔ points.length < 2 := by
  cases points with
  | nil => simp [interpolate_gps]
  | cons p0 tail =>
    cases tail with
    | nil => simp [interpolate_gps]
    | cons p1 rest =>
      constructor
      · intro h
        by_cases h1 : target_time ≤ p0.time
        · rw [interpolate_gps, if_pos h1] at h
          cases h
        · by_cases h2 : ((p0 :: p1 :: rest).getLastD dTP).time ≤ target_time
          · rw [interpolate_gps, if_neg h1, if_pos h2] at h
            cases h
          · have hlo : p0.time < target_time := not_le.1 h1
            have hhi : target_time < ((p1 :: rest).getLastD p0).time := by
              rw [← List.getLastD_cons (l := p1 :: rest)]
              exact not_le.1 h2
            obtain ⟨i, _, _, _, _, hscan⟩ :=
              scanPairs_bracket target_time (p1 :: rest) p0 hs hlo hhi
            rw [interpolate_gps, if_neg h1, if_neg h2, hscan] at h
            cases h
      · intro h
        exfalso
        simp only [List.length_cons] at h
        omega

/-- C8 witness: on a concrete sorted 2-point track the equivalence holds and
both sides are false; on a 1-point track both sides are true. -/
theorem C8_witness :
    (interpolate_gps [TrackPoint.mk 0 0 0, TrackPoint.mk 10 1 1] 99 = none
      ↔ ([TrackPoint.mk 0 0 0, TrackPoint.mk 10 1 1] :
          List TrackPoint).length < 2) ∧
    (interpolate_gps [TrackPoint.mk 0 0 0] 99 = none
      ↔ ([TrackPoint.mk 0 0 0] : List TrackPoint).length < 2) :=
  ⟨C8_none_iff_short [TrackPoint.mk 0 0 0, TrackPoint.mk 10 1 1] 99 (by decide),
   C8_none_iff_short [TrackPoint.mk 0 0 0] 99 (by decide)⟩

/-- C3: the batch matcher, read per observation id, returns exactly what the
single-observation form returns for each observation with a position, and
`None` for each observation lacking a position — for every parcel collection,
the empty one included. -/
theorem C3_batch_matches_single {Poly : Type} (ops : GeoPrims Poly)
    (frames : List Frame) (props : List (GeoProperty Poly)) (buf : ℚ)
    (f : Frame) (hnd : (frames.map (fun f => f.id)).Nodup) (hf : f ∈ frames) :
    pyGet (match_frames_to_properties ops frames props buf) f.id
      = match f.gps_lat, f.gps_lon with
        | some lat, some lon => match_frame_to_property ops lat lon props buf
        | _, _ => none := by
  by_cases hprops : props = []
  · subst hprops
    have hempty : match_frames_to_properties ops frames [] buf = [] := rfl
    rw [hempty]
    cases hlat : f.gps_lat with
    | none =>
      cases hlon : f.gps_lon with
      | none => rfl
      | some lon => rfl
    | some lat =>
      cases hlon : f.gps_lon with
      | none => rfl
      | some lon => rfl
  · rw [match_frames_lookup ops frames props buf f hnd hf hprops]
    cases hlat : f.gps_lat with
    | none =>
      cases hlon : f.gps_lon with
      | none => rfl
      | some lon => rfl
    | some lat =>
      cases hlon : f.gps_lon with
      | none => rfl
      | some lon =>
        have hsingle : match_frame_to_property ops lat lon props buf
            = pyGet (match_frames_to_properties ops
                [{ id := 0, gps_lat := some lat, gps_lon := some lon }]
                props buf) 0 := rfl
        show processFrame ops (build_index props).1 (build_index props).2 buf
            (some lat) (some lon)
          = match_frame_to_property ops lat lon props buf
        rw [hsingle,
          match_frames_lookup ops
            [{ id := 0, gps_lat := some lat, gps_lon := some lon }] props buf
            { id := 0, gps_lat := some lat, gps_lon := some lon }
            (by simp) (List.mem_singleton_self _) hprops]

/-- C3 witness: the equivalence instantiated on a concrete batch against the
rectangle geometry — one frame with a position and one without, and also
against the empty parcel collection. -/
theorem C3_witness :
    (pyGet (match_frames_to_properties rectOps
        [{ id := 1, gps_lat := some (1/2000), gps_lon := some (1/2000) },
         { id := 2, gps_lat := none, gps_lon := some 3 }]
        [{ id := 5, polygon_geojson := some (Rect.mk 0 (1/1000) 0 (1/1000)) }]
        30) 1
      = match_frame_to_property rectOps (1/2000) (1/2000)
          [{ id := 5, polygon_geojson := some (Rect.mk 0 (1/1000) 0 (1/1000)) }]
          30) ∧
    (pyGet (match_frames_to_properties rectOps
        [{ id := 1, gps_lat := some (1/2000), gps_lon := some (1/2000) },
         { id := 2, gps_lat := none, gps_lon := some 3 }]
        [{ id := 5, polygon_geojson := some (Rect.mk 0 (1/1000) 0 (1/1000)) }]
        30) 2 = none) ∧
    (pyGet (match_frames_to_properties rectOps
        [{ id := 1, gps_lat := some (1/2000), gps_lon := some (1/2000) },
         { id := 2, gps_lat := none, gps_lon := some 3 }]
        ([] : List (GeoProperty Rect)) 30) 1
      = match_frame_to_property rectOps (1/2000) (1/2000)
          ([] : List (GeoProperty Rect)) 30) :=
  ⟨C3_batch_matches_single rectOps _ _ 30
      { id := 1, gps_lat := some (1/2000), gps_lon := some (1/2000) }
      (by decide) (List.mem_cons_self _ _),
   C3_batch_matches_single rectOps _ _ 30
      { id := 2, gps_lat := none, gps_lon := some 3 }
      (by decide) (List.mem_cons_of_mem _ (List.mem_singleton_self _)),
   C3_batch_matches_single rectOps _ _ 30
      { id := 1, gps_lat := some (1/2000), gps_lon := some (1/2000) }
      (by decide) (List.mem_cons_self _ _)⟩

/-- C9: a point strictly inside exactly one indexed parcel polygon (shapely
`contains` is interior membership) and outside all others resolves, for EVERY
value of `buffer_meters`, to that parcel: pass-1 exact containment wins before
and independently of the buffered fallback.  The spatial index is assumed
complete: the containing polygon is among the point-query hits. -/
theorem C9_containment_precedence {Poly : Type} (ops : GeoPrims Poly)
    (frames : List Frame) (props : List (GeoProperty Poly))
    (buffer_meters : ℚ) (f : Frame) (lat lon : ℚ) (k : ℕ) (pk : Poly)
    (hnd : (frames.map (fun f => f.id)).Nodup) (hf : f ∈ frames)
    (hlat : f.gps_lat = some lat) (hlon : f.gps_lon = some lon)
    (hprops : props ≠ [])
    (hk : (build_index props).1[k]? = some pk)
    (hcont : ops.contains pk (lon, lat) = true)
    (huniq : ∀ (j : ℕ) (pj : Poly), (build_index props).1[j]? = some pj →
      ops.contains pj (lon, lat) = true → j = k)
    (hquery : k ∈ ops.queryPoint (build_index props).1 (lon, lat)) :
    pyGet (match_frames_to_properties ops frames props buffer_meters) f.id
      = some ((build_index props).2.getD k 0) := by
  rw [match_frames_lookup ops frames props buffer_meters f hnd hf hprops,
    hlat, hlon]
  simp only [processFrame,
    pass1_finds ops (build_index props).1 (build_index props).2 (lon, lat)
      k pk hk hcont huniq _ hquery]

/-- C9 witness: a point strictly inside the only rectangle resolves to parcel
42 at two very different buffer values. -/
theorem C9_witness :
    pyGet (match_frames_to_properties rectOps
        [{ id := 7, gps_lat := some (1/2000), gps_lon := some (1/2000) }]
        [{ id := 42, polygon_geojson := some (Rect.mk 0 (1/1000) 0 (1/1000)) }]
        30) 7 = some 42 ∧
    pyGet (match_frames_to_properties rectOps
        [{ id := 7, gps_lat := some (1/2000), gps_lon := some (1/2000) }]
        [{ id := 42, polygon_geojson := some (Rect.mk 0 (1/1000) 0 (1/1000)) }]
        0) 7 = some 42 := by
  constructor
  · exact C9_containment_precedence rectOps _ _ 30
      { id := 7, gps_lat := some (1/2000), gps_lon := some (1/2000) }
      (1/2000) (1/2000) 0 (Rect.mk 0 (1/1000) 0 (1/1000))
      (by decide) (List.mem_singleton_self _) rfl rfl
      (List.cons_ne_nil _ _) rfl (by decide)
      (by
        intro j pj hj _
        match j with
        | 0 => rfl
        | j' + 1 => exact Option.noConfusion hj)
      (by decide)
  · exact C9_containment_precedence rectOps _ _ 0
      { id := 7, gps_lat := some (1/2000), gps_lon := some (1/2000) }
      (1/2000) (1/2000) 0 (Rect.mk 0 (1/1000) 0 (1/1000))
      (by decide) (List.mem_singleton_self _) rfl rfl
      (List.cons_ne_nil _ _) rfl (by decide)
      (by
        intro j pj hj _
        match j with
        | 0 => rfl
        | j' + 1 => exact Option.noConfusion hj)
      (by decide)

/-- C2 counterexample: a candidate that survives the coarse search-radius
filter, whose minimum boundary distance in the metric projection is 10m —
strictly below `buffer_meters = 30` — is nevertheless NOT returned (`None`),
because the pass-2 loop also skips any candidate whose centroid lies farther
than `3 × buffer_meters` in the projection (here a 500m-long parcel whose
centroid is 260m away).  This refutes "a parcel is returned iff the minimum
boundary distance is strictly less than `buffer_meters`". -/
theorem C2_counterexample :
    rectOps.contains (Rect.mk 0 (500/111000) (-10/111000) (10/111000))
        (510/111000, 0) = false ∧
    (0 : ℕ) ∈ rectOps.queryBuffer
        [Rect.mk 0 (500/111000) (-10/111000) (10/111000)]
        (510/111000, 0) (30 / 111000) ∧
    edgeD2 rectOps [Rect.mk 0 (500/111000) (-10/111000) (10/111000)]
        (510/111000, 0) (rectOps.toUTM (510/111000, 0)) 0 = 100 ∧
    sqrtLtB (edgeD2 rectOps [Rect.mk 0 (500/111000) (-10/111000) (10/111000)]
        (510/111000, 0) (rectOps.toUTM (510/111000, 0)) 0) 30 = true ∧
    pyGet (match_frames_to_properties rectOps
        [{ id := 1, gps_lat := some 0, gps_lon := some (510/111000) }]
        [{ id := 5,
           polygon_geojson := some (Rect.mk 0 (500/111000) (-10/111000) (10/111000)) }]
        30) 1 = none := by
  decide

/-- C2 (amended): in the buffered fallback pass (entered only when no indexed
polygon contains the point), the observation is unmatched iff NO candidate in
the coarse search radius is `accepted` — i.e. passes the centroid pre-filter
(centroid within `3 × buffer_meters` in the metric projection) AND has
boundary distance strictly below `buffer_meters`; and when a parcel is
returned it is an accepted candidate of minimal boundary distance among all
accepted candidates.  (Distances are compared through their squares:
`edgeD2`/`sqrtLtB` are the squared boundary distance and the square-free
comparison.) -/
theorem C2_buffered_fallback_argmin {Poly : Type} (ops : GeoPrims Poly)
    (frames : List Frame) (props : List (GeoProperty Poly))
    (buffer_meters : ℚ) (f : Frame) (lat lon : ℚ)
    (hnd : (frames.map (fun f => f.id)).Nodup) (hf : f ∈ frames)
    (hlat : f.gps_lat = some lat) (hlon : f.gps_lon = some lon)
    (hprops : props ≠ [])
    (hnc : ∀ (j : ℕ) (pj : Poly), (build_index props).1[j]? = some pj →
      ops.contains pj (lon, lat) = false) :
    (pyGet (match_frames_to_properties ops frames props buffer_meters) f.id
        = none
      ↔ ∀ i ∈ ops.queryBuffer (build_index props).1 (lon, lat)
            (buffer_meters / 111000),
          accepted ops (build_index props).1 (lon, lat)
            (ops.toUTM (lon, lat)) buffer_meters i = false) ∧
    (∀ pid,
      pyGet (match_frames_to_properties ops frames props buffer_meters) f.id
          = some pid →
      ∃ i ∈ ops.queryBuffer (build_index props).1 (lon, lat)
          (buffer_meters / 111000),
        accepted ops (build_index props).1 (lon, lat)
          (ops.toUTM (lon, lat)) buffer_meters i = true ∧
        pid = (build_index props).2.getD i 0 ∧
        ∀ j ∈ ops.queryBuffer (build_index props).1 (lon, lat)
            (buffer_meters / 111000),
          accepted ops (build_index props).1 (lon, lat)
            (ops.toUTM (lon, lat)) buffer_meters j = true →
          edgeD2 ops (build_index props).1 (lon, lat) (ops.toUTM (lon, lat)) i
            ≤ edgeD2 ops (build_index props).1 (lon, lat)
                (ops.toUTM (lon, lat)) j) := by
  rw [match_frames_lookup ops frames props buffer_meters f hnd hf hprops,
    hlat, hlon,
    processFrame_pass2 ops (build_index props).1 (build_index props).2
      buffer_meters lat lon hnc]
  constructor
  · rw [Option.map_eq_none', pass2Aux_none_iff]
    simp
  · intro pid hp
    obtain ⟨b, hq, hqe⟩ := Option.map_eq_some'.1 hp
    obtain ⟨q, d⟩ := b
    obtain ⟨ho, hmin, _⟩ :=
      pass2Aux_some_spec ops (build_index props).1 (build_index props).2
        (lon, lat) (ops.toUTM (lon, lat)) buffer_meters
        (ops.queryBuffer (build_index props).1 (lon, lat)
          (buffer_meters / 111000)) none q d hq
    rcases ho with hl | ⟨i, hi, hacc, hpid, hd⟩
    · cases hl
    · refine ⟨i, hi, hacc, ?_, ?_⟩
      · rw [← hqe]
        exact hpid
      · intro j hj hja
        rw [← hd]
        exact hmin j hj hja

/-- C2 witness: the amended fallback characterisation instantiated on a
rectangle 29m from the query point at `buffer_meters = 30`, together with the
spec's buffer-boundary example: the 29m parcel matches at `buffer_meters = 30`
and is unmatched at `buffer_meters = 20`. -/
theorem C2_witness :
    (pyGet (match_frames_to_properties rectOps
          [{ id := 1, gps_lat := some 0, gps_lon := some 0 }]
          [{ id := 5,
             polygon_geojson := some (Rect.mk (29/111000) (40/111000)
               (-5/111000) (5/111000)) }]
          30) 1 = none
      ↔ ∀ i ∈ rectOps.queryBuffer
            (build_index
              ([{ id := 5,
                  polygon_geojson := some (Rect.mk (29/111000) (40/111000)
                    (-5/111000) (5/111000)) }] :
                List (GeoProperty Rect))).1 (0, 0) (30 / 111000),
          accepted rectOps
            (build_index
              ([{ id := 5,
                  polygon_geojson := some (Rect.mk (29/111000) (40/111000)
                    (-5/111000) (5/111000)) }] :
                List (GeoProperty Rect))).1 (0, 0) (rectOps.toUTM (0, 0))
            30 i = false) ∧
    pyGet (match_frames_to_properties rectOps
        [{ id := 1, gps_lat := some 0, gps_lon := some 0 }]
        [{ id := 5,
           polygon_geojson := some (Rect.mk (29/111000) (40/111000)
             (-5/111000) (5/111000)) }]
        30) 1 = some 5 ∧
    pyGet (match_frames_to_properties rectOps
        [{ id := 1, gps_lat := some 0, gps_lon := some 0 }]
        [{ id := 5,
           polygon_geojson := some (Rect.mk (29/111000) (40/111000)
             (-5/111000) (5/111000)) }]
        20) 1 = none :=
  ⟨(C2_buffered_fallback_argmin rectOps
      [{ id := 1, gps_lat := some 0, gps_lon := some 0 }]
      [{ id := 5,
         polygon_geojson := some (Rect.mk (29/111000) (40/111000)
           (-5/111000) (5/111000)) }]
      30 { id := 1, gps_lat := some 0, gps_lon := some 0 } 0 0
      (by decide) (List.mem_singleton_self _) rfl rfl
      (List.cons_ne_nil _ _)
      (by
        intro j pj hj
        match j with
        | 0 =>
          injection hj with h'
          rw [← h']
          decide
        | j' + 1 => exact Option.noConfusion hj)).1,
   by decide, by decide⟩

end ChangeDetection
